import Mathlib

/-
A shallow embedding of packages/next/src/server/lib/incremental-cache/file-system-cache.ts
(the FileSystemCache incremental cache handler) and proofs about its get, set,
revalidateTag and tags-manifest logic.

Modelling conventions:
- All file I/O is explicit state passing over a World value: an association list
  of files (content plus mtime), the process-wide memory cache, the process-wide
  in-memory tags manifest, a log of attempted reads, a log of attempted writes,
  and a set of paths whose writes fail.
- JSON values are modelled structurally: a file content is either raw text or a
  typed JSON payload; JSON.parse together with the shape expected by the caller
  is modelled as matching the corresponding constructor (anything else is a
  parse failure). Binary payloads (Buffer reads and writes) are carried as
  opaque FileContent values so round trips are exact.
- JS truthiness is modelled explicitly where the source relies on it: a zero
  revalidatedAt fails the "rv &&" guard, a zero or missing lastModified falls
  back to Date.now() via "||", a zero maxMemoryCacheSize counts as absent, an
  empty serverDistDir counts as absent.
- Date.now() is passed in as an explicit parameter named now; all calls inside
  one operation observe the same value.
- The LRU memory cache is treated as the spec directs: a black-box associative
  container (no eviction and no size accounting are modelled; its pluggable
  size function is not involved in any claim).
- process.env.NEXT_RUNTIME is modelled as a non-edge runtime.
- Thrown exceptions are Except errors; every try/catch of the source is a
  match on that error. Directory creation (fs.mkdir) is modelled as a no-op
  that always succeeds; write failures are carried by the writeFailures set.
-/

namespace FsCacheModel

/-- CachedRouteKind from the response-cache module (the kind discriminator of
cached values). -/
inductive CachedRouteKind
  | REDIRECT
  | IMAGE
  | FETCH
  | APP_ROUTE
  | APP_PAGE
  | PAGES
deriving DecidableEq, Repr

/-- IncrementalCacheKind from the response-cache module (the kind requested by
a get, and the kind used for path derivation). -/
inductive IncrementalCacheKind
  | FETCH
  | PAGES
  | IMAGE
  | APP_PAGE
  | APP_ROUTE
deriving DecidableEq, Repr

/-- A response-header value: string, string list, or number (OutgoingHttpHeaders). -/
inductive HeaderValue
  | str (s : String)
  | strs (l : List String)
  | num (n : Nat)
deriving DecidableEq, Repr

/-- Response headers as an association list. -/
abbrev Headers := List (String × HeaderValue)

/-- Modelled from the spec: the stored fetch value (CachedFetchValue from the
response-cache module, not under src/): an opaque data payload, a revalidate
policy, and the tag list active at write time. -/
structure CachedFetchValue where
  data : String
  revalidate : Nat
  tags : Option (List String)
deriving DecidableEq, Repr

/-- Modelled from the spec: RouteMetadata (the sidecar .meta JSON shape from the
export/routes module, not under src/): headers, status, continuation marker. -/
structure RouteMetadata where
  status : Option Nat
  headers : Option Headers
  postponed : Option String
deriving DecidableEq, Repr

/-- The tags manifest: version plus a mapping tag to revalidatedAt timestamp. -/
structure TagsManifest where
  version : Nat
  items : List (String × Nat)
deriving DecidableEq, Repr

/-- File contents: raw text, a typed JSON payload (JSON.parse with the shape
expected by the reader is modelled as matching the constructor), or corrupt
(present but unparsable). -/
inductive FileContent
  | text (s : String)
  | fetchJson (v : CachedFetchValue)
  | metaJson (m : RouteMetadata)
  | dataJson (d : String)
  | manifestJson (m : TagsManifest)
  | corrupt
deriving DecidableEq, Repr

/-- A stored file: content plus modification time. -/
structure FileEntry where
  content : FileContent
  mtime : Nat
deriving DecidableEq, Repr

/-- The cached value variants (CachedRouteValue / IncrementalCacheValue).
Binary bodies are opaque FileContent values. -/
inductive CachedRouteValue
  | redirect (props : String)
  | image
  | fetch (v : CachedFetchValue)
  | appRoute (body : FileContent) (headers : Option Headers) (status : Option Nat)
  | appPage (html : String) (rscData : Option FileContent) (postponed : Option String)
      (headers : Option Headers) (status : Option Nat)
  | pages (html : String) (pageData : String) (headers : Option Headers) (status : Option Nat)
deriving DecidableEq, Repr

/-- CacheHandlerValue: freshness baseline plus optional value (a null value is
a recorded miss in the memory tier). -/
structure CacheHandlerValue where
  lastModified : Option Nat
  value : Option CachedRouteValue
deriving DecidableEq, Repr

/-- The process-wide LRU memory cache, as a black-box associative container
(capacity kept, eviction not modelled). -/
structure MemCacheInst where
  max : Nat
  entries : List (String × CacheHandlerValue)
deriving DecidableEq, Repr

/-- The whole mutable state an operation can touch: the file system, the two
process-wide globals (memoryCache, tagsManifest), an attempted-read log, an
attempted-write log, and the set of paths whose writes fail. -/
structure World where
  files : List (String × FileEntry)
  memoryCache : Option MemCacheInst
  tagsManifest : Option TagsManifest
  reads : List String
  writes : List String
  writeFailures : List String
deriving DecidableEq, Repr

/-- The FileSystemCache instance fields relevant to the model. -/
structure FileSystemCache where
  flushToDisk : Bool
  serverDistDir : String
  revalidatedTags : List String
  tagsManifestPath : Option String
deriving DecidableEq, Repr

/-- Modelled from the spec: NEXT_CACHE_TAGS_HEADER from lib/constants (not
under src/), the response header carrying comma-separated cache tags. -/
def NEXT_CACHE_TAGS_HEADER : String := "x-next-cache-tags"

/-- Modelled from the spec: NEXT_DATA_SUFFIX from lib/constants, the
data-payload suffix for legacy-style pages. -/
def NEXT_DATA_SUFFIX : String := ".json"

/-- Modelled from the spec: NEXT_META_SUFFIX from lib/constants, the sidecar
metadata suffix. -/
def NEXT_META_SUFFIX : String := ".meta"

/-- Modelled from the spec: RSC_PREFETCH_SUFFIX from lib/constants, the
prefetch-oriented data-payload suffix for app-style pages. -/
def RSC_PREFETCH_SUFFIX : String := ".prefetch.rsc"

/-- Modelled from the spec: RSC_SUFFIX from lib/constants, the full
data-payload suffix for app-style pages. -/
def RSC_SUFFIX : String := ".rsc"

/-- path.join, modelled as interleaving slashes (no normalization; paths are
only ever compared for equality, and the ".." segment stays literal). -/
def pathJoin : List String → String
  | [] => ""
  | [x] => x
  | x :: xs => x ++ "/" ++ pathJoin xs

/-- String.replace with an end-anchored pattern: substitute a suffix when it is
present, otherwise leave the string unchanged. -/
def replaceSuffix (s suf repl : String) : String :=
  if suf.data.isSuffixOf s.data then
    String.mk (s.data.take (s.data.length - suf.data.length) ++ repl.data)
  else s

/-- String.prototype.split with a one-character separator, as used by
tagsHeader.split(','): structural recursion over the character list; the empty
string splits to a singleton list holding the empty string, as in JS. -/
def splitOnChar (sep : Char) : List Char → List String
  | [] => [""]
  | c :: rest =>
    let r := splitOnChar sep rest
    if c = sep then "" :: r
    else
      match r with
      | [] => [String.mk [c]]
      | s :: ss => String.mk (c :: s.data) :: ss

/-- tagsHeader.split(','). -/
def splitComma (s : String) : List String :=
  splitOnChar ',' s.data

/-- items[k] = v on an association list (in-place update, append when absent). -/
def assocSet {β : Type} : List (String × β) → String → β → List (String × β)
  | [], k, v => [(k, v)]
  | (a, b) :: t, k, v => if a = k then (a, v) :: t else (a, b) :: assocSet t k v

/-- File lookup by exact path. -/
def lookupFile (w : World) (p : String) : Option FileEntry :=
  w.files.lookup p

/-- fs.readFile: logs the attempt; a missing file throws. -/
def readFileE (w : World) (p : String) : Except Unit FileContent × World :=
  let w1 : World := { w with reads := w.reads ++ [p] }
  match lookupFile w p with
  | some e => (Except.ok e.content, w1)
  | none => (Except.error (), w1)

/-- fs.stat (for mtime): logs the attempt; a missing file throws. -/
def statE (w : World) (p : String) : Except Unit Nat × World :=
  let w1 : World := { w with reads := w.reads ++ [p] }
  match lookupFile w p with
  | some e => (Except.ok e.mtime, w1)
  | none => (Except.error (), w1)

/-- fs.writeFile: logs the attempt; returns whether it succeeded, updating the
file (with mtime = now) on success. -/
def writeFileE (w : World) (p : String) (c : FileContent) (now : Nat) : Bool × World :=
  let w1 : World := { w with writes := w.writes ++ [p] }
  if p ∈ w.writeFailures then (false, w1)
  else (true, { w1 with files := assocSet w1.files p (FileEntry.mk c now) })

/-- memoryCache?.get(key). -/
def memGet (w : World) (key : String) : Option CacheHandlerValue :=
  match w.memoryCache with
  | some mc => mc.entries.lookup key
  | none => none

/-- memoryCache?.set(key, v). -/
def memSet (w : World) (key : String) (v : CacheHandlerValue) : World :=
  match w.memoryCache with
  | some mc => { w with memoryCache := some (MemCacheInst.mk mc.max (assocSet mc.entries key v)) }
  | none => w

/-- getFilePath: deterministic path derivation from pathname and kind. -/
def getFilePath (serverDistDir pathname : String) : IncrementalCacheKind → String
  | IncrementalCacheKind.FETCH =>
      pathJoin [serverDistDir, "..", "cache", "fetch-cache", pathname]
  | IncrementalCacheKind.PAGES => pathJoin [serverDistDir, "pages", pathname]
  | IncrementalCacheKind.IMAGE => pathJoin [serverDistDir, "app", pathname]
  | IncrementalCacheKind.APP_PAGE => pathJoin [serverDistDir, "app", pathname]
  | IncrementalCacheKind.APP_ROUTE => pathJoin [serverDistDir, "app", pathname]

/-- The tags-manifest path computed by the constructor. -/
def tagsManifestPathOf (serverDistDir : String) : String :=
  pathJoin [serverDistDir, "..", "cache", "fetch-cache", "tags-manifest.json"]

/-- loadTagsManifest: no-op when the path is unset or a manifest is already in
memory; otherwise read the file, initializing to version 1 with empty items on
any read or parse failure. -/
def loadTagsManifest (c : FileSystemCache) (w : World) : World :=
  match c.tagsManifestPath with
  | none => w
  | some p =>
    if w.tagsManifest.isSome then w
    else
      let r := readFileE w p
      match r.1 with
      | Except.ok (FileContent.manifestJson m) => { r.2 with tagsManifest := some m }
      | _ => { r.2 with tagsManifest := some (TagsManifest.mk 1 []) }

/-- loadTagsManifestSync: the synchronous constructor-time variant; its body is
the same load (the source duplicates it with readFileSync). -/
def loadTagsManifestSync (c : FileSystemCache) (w : World) : World :=
  loadTagsManifest c w

/-- The constructor arguments carried by FileSystemCacheContext; a zero
maxMemoryCacheSize models a falsy (absent or zero) configuration. -/
structure CtorCtx where
  flushToDisk : Bool
  serverDistDir : String
  revalidatedTags : List String
  maxMemoryCacheSize : Nat
deriving DecidableEq, Repr

/-- The FileSystemCache constructor: create the process-wide memory cache only
when a size is configured and none exists yet; derive the tags-manifest path
when serverDistDir is truthy and load the manifest synchronously. -/
def mkFileSystemCache (ctx : CtorCtx) (w : World) : FileSystemCache × World :=
  let w1 : World :=
    if ctx.maxMemoryCacheSize ≠ 0 then
      match w.memoryCache with
      | none => { w with memoryCache := some (MemCacheInst.mk ctx.maxMemoryCacheSize []) }
      | some _ => w
    else w
  let tmp : Option String :=
    if ctx.serverDistDir ≠ "" then some (tagsManifestPathOf ctx.serverDistDir) else none
  let c : FileSystemCache :=
    FileSystemCache.mk ctx.flushToDisk ctx.serverDistDir ctx.revalidatedTags tmp
  match tmp with
  | some _ => (c, loadTagsManifestSync c w1)
  | none => (c, w1)

/-- revalidateTag takes a single tag or a list. -/
inductive TagOrTags
  | one (t : String)
  | many (ts : List String)
deriving DecidableEq, Repr

/-- revalidateTag: normalize to a list; empty is a no-op; load the manifest (a
no-op when one is already in memory), merge now into each tag, and write the
merged manifest back, swallowing any write failure. -/
def revalidateTag (c : FileSystemCache) (arg : TagOrTags) (now : Nat) (w : World) : World :=
  let tags : List String := match arg with | TagOrTags.one t => [t] | TagOrTags.many ts => ts
  if tags.length = 0 then w
  else
    let w1 := loadTagsManifest c w
    match w1.tagsManifest, c.tagsManifestPath with
    | some m, some p =>
      let items := tags.foldl (fun acc tag => assocSet acc tag now) m.items
      let m1 : TagsManifest := TagsManifest.mk m.version items
      let w2 : World := { w1 with tagsManifest := some m1 }
      let r := writeFileE w2 p (FileContent.manifestJson m1) now
      r.2
    | _, _ => w1

/-- The context of a set call. -/
structure SetCtx where
  tags : Option (List String)
  isRoutePPREnabled : Bool
  isFallback : Bool
deriving DecidableEq, Repr

/-- set: always record in the memory tier stamped now; stop when persistence is
disabled or the value is null; otherwise dispatch on the kind, writing content
then sidecars, skipping the data-payload write for page-like fallbacks, and
replacing the stored tags of a fetch value by the tags of the context. Write
failures (and the invariant throw on redirect or image kinds, and the missing
rscData payload of an app page) propagate as errors. -/
def set (c : FileSystemCache) (key : String) (data : Option CachedRouteValue)
    (ctx : SetCtx) (now : Nat) (w : World) : Except Unit Unit × World :=
  let w1 := memSet w key (CacheHandlerValue.mk (some now) data)
  if ¬ c.flushToDisk then (Except.ok (), w1)
  else
    match data with
    | none => (Except.ok (), w1)
    | some (CachedRouteValue.appRoute body headers status) =>
      let filePath := getFilePath c.serverDistDir (key ++ ".body") IncrementalCacheKind.APP_ROUTE
      let r1 := writeFileE w1 filePath body now
      if r1.1 then
        let meta : RouteMetadata := RouteMetadata.mk status headers none
        let r2 := writeFileE r1.2 (replaceSuffix filePath ".body" NEXT_META_SUFFIX)
          (FileContent.metaJson meta) now
        if r2.1 then (Except.ok (), r2.2) else (Except.error (), r2.2)
      else (Except.error (), r1.2)
    | some (CachedRouteValue.appPage html rscData postponed headers status) =>
      let htmlPath := getFilePath c.serverDistDir (key ++ ".html") IncrementalCacheKind.APP_PAGE
      let r1 := writeFileE w1 htmlPath (FileContent.text html) now
      if r1.1 then
        let afterData : Except Unit Unit × World :=
          if ¬ ctx.isFallback then
            let dataPath := getFilePath c.serverDistDir
              (key ++ (if ctx.isRoutePPREnabled then RSC_PREFETCH_SUFFIX else RSC_SUFFIX))
              IncrementalCacheKind.APP_PAGE
            match rscData with
            | none => (Except.error (), r1.2)
            | some blob =>
              let r2 := writeFileE r1.2 dataPath blob now
              if r2.1 then (Except.ok (), r2.2) else (Except.error (), r2.2)
          else (Except.ok (), r1.2)
        match afterData.1 with
        | Except.error _ => (Except.error (), afterData.2)
        | Except.ok _ =>
          let meta : RouteMetadata := RouteMetadata.mk status headers postponed
          let r3 := writeFileE afterData.2 (replaceSuffix htmlPath ".html" NEXT_META_SUFFIX)
            (FileContent.metaJson meta) now
          if r3.1 then (Except.ok (), r3.2) else (Except.error (), r3.2)
      else (Except.error (), r1.2)
    | some (CachedRouteValue.pages html pageData _headers _status) =>
      let htmlPath := getFilePath c.serverDistDir (key ++ ".html") IncrementalCacheKind.PAGES
      let r1 := writeFileE w1 htmlPath (FileContent.text html) now
      if r1.1 then
        if ¬ ctx.isFallback then
          let dataPath := getFilePath c.serverDistDir (key ++ NEXT_DATA_SUFFIX)
            IncrementalCacheKind.PAGES
          let r2 := writeFileE r1.2 dataPath (FileContent.dataJson pageData) now
          if r2.1 then (Except.ok (), r2.2) else (Except.error (), r2.2)
        else (Except.ok (), r1.2)
      else (Except.error (), r1.2)
    | some (CachedRouteValue.fetch v) =>
      let filePath := getFilePath c.serverDistDir key IncrementalCacheKind.FETCH
      let r1 := writeFileE w1 filePath
        (FileContent.fetchJson (CachedFetchValue.mk v.data v.revalidate ctx.tags)) now
      if r1.1 then (Except.ok (), r1.2) else (Except.error (), r1.2)
    | some (CachedRouteValue.redirect _) => (Except.error (), w1)
    | some CachedRouteValue.image => (Except.error (), w1)

/-- The context of a get call. -/
structure GetCtx where
  tags : Option (List String)
  softTags : Option (List String)
  kind : IncrementalCacheKind
  isRoutePPREnabled : Bool
  isFallback : Bool
deriving DecidableEq, Repr

/-- Reading a utf8 file that is expected to be raw text: structured contents
render as an opaque string not needed by any theorem. -/
def FileContent.asText : FileContent → String
  | FileContent.text s => s
  | _ => ""

/-- The dedicated APP_ROUTE read of get (its own try/catch): read body, stat,
and the sidecar metadata, returning the entry directly; any failure returns
null. The memory tier is not touched. -/
def appRouteGet (c : FileSystemCache) (key : String) (w : World) :
    Option CacheHandlerValue × World :=
  let filePath := getFilePath c.serverDistDir (key ++ ".body") IncrementalCacheKind.APP_ROUTE
  let r1 := readFileE w filePath
  match r1.1 with
  | Except.error _ => (none, r1.2)
  | Except.ok fileData =>
    let r2 := statE r1.2 filePath
    match r2.1 with
    | Except.error _ => (none, r2.2)
    | Except.ok mtime =>
      let r3 := readFileE r2.2 (replaceSuffix filePath ".body" NEXT_META_SUFFIX)
      match r3.1 with
      | Except.ok (FileContent.metaJson meta) =>
        (some (CacheHandlerValue.mk (some mtime)
          (some (CachedRouteValue.appRoute fileData meta.headers meta.status))), r3.2)
      | _ => (none, r3.2)

/-- The outcome of the main disk-read try block: a caught throw, a direct null
return, or a deserialized entry that falls through to staleness evaluation. -/
inductive CoreOut
  | thrown
  | retNull
  | dataIs (d : CacheHandlerValue)
deriving DecidableEq, Repr

/-- The body of the main try block of get for the FETCH, APP_PAGE, PAGES (and
unreachable IMAGE, which throws the kind invariant) kinds: read content and
stat, then deserialize per kind; a FETCH read with persistence disabled returns
null directly; a FETCH entry whose stored tags do not cover the requested tags
triggers a write-back through set (whose thrown failures reach the catch). -/
def diskReadCore (c : FileSystemCache) (key : String) (ctx : GetCtx) (now : Nat)
    (w : World) : CoreOut × World :=
  let filePath := getFilePath c.serverDistDir
    (if ctx.kind = IncrementalCacheKind.FETCH then key else key ++ ".html") ctx.kind
  let r1 := readFileE w filePath
  match r1.1 with
  | Except.error _ => (CoreOut.thrown, r1.2)
  | Except.ok fileData =>
    let r2 := statE r1.2 filePath
    match r2.1 with
    | Except.error _ => (CoreOut.thrown, r2.2)
    | Except.ok mtime =>
      match ctx.kind with
      | IncrementalCacheKind.FETCH =>
        if ¬ c.flushToDisk then (CoreOut.retNull, r2.2)
        else
          match fileData with
          | FileContent.fetchJson parsedData =>
            let d : CacheHandlerValue :=
              CacheHandlerValue.mk (some mtime) (some (CachedRouteValue.fetch parsedData))
            let storedTags := parsedData.tags
            let covered : Bool :=
              match ctx.tags with
              | some ts => ts.all fun t => (storedTags.getD []).contains t
              | none => false
            if covered then (CoreOut.dataIs d, r2.2)
            else
              let r3 := set c key (some (CachedRouteValue.fetch parsedData))
                (SetCtx.mk ctx.tags ctx.isRoutePPREnabled false) now r2.2
              match r3.1 with
              | Except.error _ => (CoreOut.thrown, r3.2)
              | Except.ok _ => (CoreOut.dataIs d, r3.2)
          | _ => (CoreOut.thrown, r2.2)
      | IncrementalCacheKind.APP_PAGE =>
        if ctx.isFallback then
          (CoreOut.dataIs (CacheHandlerValue.mk (some mtime)
            (some (CachedRouteValue.appPage fileData.asText none none none none))), r2.2)
        else
          let metaPath := replaceSuffix filePath ".html" NEXT_META_SUFFIX
          let r3 := readFileE r2.2 metaPath
          let meta : Option RouteMetadata :=
            match r3.1 with
            | Except.ok (FileContent.metaJson m) => some m
            | _ => none
          let rscPath := getFilePath c.serverDistDir
            (key ++ (if ctx.isRoutePPREnabled then RSC_PREFETCH_SUFFIX else RSC_SUFFIX))
            IncrementalCacheKind.APP_PAGE
          let r4 := readFileE r3.2 rscPath
          match r4.1 with
          | Except.error _ => (CoreOut.thrown, r4.2)
          | Except.ok rsc =>
            (CoreOut.dataIs (CacheHandlerValue.mk (some mtime)
              (some (CachedRouteValue.appPage fileData.asText (some rsc)
                (meta.bind RouteMetadata.postponed) (meta.bind RouteMetadata.headers)
                (meta.bind RouteMetadata.status)))), r4.2)
      | IncrementalCacheKind.PAGES =>
        if ctx.isFallback then
          (CoreOut.dataIs (CacheHandlerValue.mk (some mtime)
            (some (CachedRouteValue.pages fileData.asText "\x7b\x7d" none none))), r2.2)
        else
          let dataPath := getFilePath c.serverDistDir (key ++ NEXT_DATA_SUFFIX)
            IncrementalCacheKind.PAGES
          let r3 := readFileE r2.2 dataPath
          match r3.1 with
          | Except.ok (FileContent.dataJson pd) =>
            (CoreOut.dataIs (CacheHandlerValue.mk (some mtime)
              (some (CachedRouteValue.pages fileData.asText pd none none))), r3.2)
          | _ => (CoreOut.thrown, r3.2)
      | IncrementalCacheKind.IMAGE => (CoreOut.thrown, r2.2)
      | IncrementalCacheKind.APP_ROUTE => (CoreOut.thrown, r2.2)

/-- data?.lastModified || Date.now(): a missing or zero baseline falls back to
the current time. -/
def lmOrNow (lm : Option Nat) (now : Nat) : Nat :=
  match lm with
  | some t => if t = 0 then now else t
  | none => now

/-- tagsManifest?.items[tag]?.revalidatedAt && revalidatedAt >= (lastModified
or now): the truthiness guard makes a zero revalidatedAt never stale. -/
def manifestStale (m : Option TagsManifest) (tag : String) (lm : Option Nat) (now : Nat) : Bool :=
  match m with
  | none => false
  | some mm =>
    match mm.items.lookup tag with
    | none => false
    | some rv => if rv ≠ 0 ∧ lmOrNow lm now ≤ rv then true else false

/-- The kind discriminator of a cached value. -/
def CachedRouteValue.kindOf : CachedRouteValue → CachedRouteKind
  | CachedRouteValue.redirect _ => CachedRouteKind.REDIRECT
  | CachedRouteValue.image => CachedRouteKind.IMAGE
  | CachedRouteValue.fetch _ => CachedRouteKind.FETCH
  | CachedRouteValue.appRoute _ _ _ => CachedRouteKind.APP_ROUTE
  | CachedRouteValue.appPage _ _ _ _ _ => CachedRouteKind.APP_PAGE
  | CachedRouteValue.pages _ _ _ _ => CachedRouteKind.PAGES

/-- The headers field of a cached value (value.headers access). -/
def CachedRouteValue.headersOf : CachedRouteValue → Option Headers
  | CachedRouteValue.appRoute _ h _ => h
  | CachedRouteValue.appPage _ _ _ h _ => h
  | CachedRouteValue.pages _ _ h _ => h
  | _ => none

/-- The staleness evaluation at the end of get: page-like candidates are stale
when any tag of the cache-tags header (a comma-separated string header) has a
truthy manifest revalidatedAt at or after the baseline; fetch candidates are
discarded when any requested or soft tag is in the process-local revalidated
list or has such a manifest timestamp. -/
def stalenessCheck (c : FileSystemCache) (ctx : GetCtx) (now : Nat)
    (data : Option CacheHandlerValue) (w : World) : Option CacheHandlerValue × World :=
  match data with
  | none => (none, w)
  | some d =>
    match d.value with
    | none => (some d, w)
    | some v =>
      if v.kindOf = CachedRouteKind.APP_PAGE ∨ v.kindOf = CachedRouteKind.PAGES then
        let tagsHeader : Option HeaderValue :=
          v.headersOf.bind fun hs => hs.lookup NEXT_CACHE_TAGS_HEADER
        let cacheTags : Option (List String) :=
          match tagsHeader with
          | some (HeaderValue.str s) => some (splitComma s)
          | _ => none
        match cacheTags with
        | some (t :: ts) =>
          let w1 := loadTagsManifest c w
          let isStale := (t :: ts).any fun tag =>
            manifestStale w1.tagsManifest tag d.lastModified now
          if isStale then (none, w1) else (some d, w1)
        | _ => (some d, w)
      else if v.kindOf = CachedRouteKind.FETCH then
        let w1 := loadTagsManifest c w
        let combinedTags := ctx.tags.getD [] ++ ctx.softTags.getD []
        let wasRevalidated := combinedTags.any fun tag =>
          c.revalidatedTags.contains tag ||
            manifestStale w1.tagsManifest tag d.lastModified now
        if wasRevalidated then (none, w1) else (some d, w1)
      else (some d, w)

/-- get: memory-tier lookup; on a miss, the APP_ROUTE kind reads the persistent
tier through its own try and returns directly; other kinds run the main disk
read (populating the memory tier on success) and then staleness evaluation.
Memory-tier hits go straight to staleness evaluation. -/
def get (c : FileSystemCache) (key : String) (ctx : GetCtx) (now : Nat) (w : World) :
    Option CacheHandlerValue × World :=
  match memGet w key with
  | some d => stalenessCheck c ctx now (some d) w
  | none =>
    match ctx.kind with
    | IncrementalCacheKind.APP_ROUTE => appRouteGet c key w
    | _ =>
      match diskReadCore c key ctx now w with
      | (CoreOut.thrown, w1) => (none, w1)
      | (CoreOut.retNull, w1) => (none, w1)
      | (CoreOut.dataIs d, w1) => stalenessCheck c ctx now (some d) (memSet w1 key d)

/-! ### Association-list and string helper lemmas -/

theorem lookup_assocSet_self {β : Type} (l : List (String × β)) (k : String) (v : β) :
    (assocSet l k v).lookup k = some v := by
  induction l with
  | nil => simp [assocSet, List.lookup]
  | cons a t ih =>
    obtain ⟨a1, a2⟩ := a
    by_cases h : a1 = k
    · subst h; simp [assocSet, List.lookup]
    · have hb : (k == a1) = false := beq_eq_false_iff_ne.mpr (Ne.symm h)
      simp [assocSet, h, List.lookup, hb, ih]

theorem lookup_assocSet_ne {β : Type} (l : List (String × β)) (k : String) (v : β)
    {k' : String} (h : k' ≠ k) : (assocSet l k v).lookup k' = l.lookup k' := by
  induction l with
  | nil =>
    have hb : (k' == k) = false := beq_eq_false_iff_ne.mpr h
    simp [assocSet, List.lookup, hb]
  | cons a t ih =>
    obtain ⟨a1, a2⟩ := a
    by_cases h2 : a1 = k
    · subst h2
      have hb : (k' == a1) = false := beq_eq_false_iff_ne.mpr h
      simp [assocSet, List.lookup, hb]
    · simp [assocSet, h2, List.lookup, ih]

theorem lookup_foldl_assocSet (now : Nat) (ts : List String) :
    ∀ (acc : List (String × Nat)) (t : String),
      (t ∈ ts ∨ acc.lookup t = some now) →
      (ts.foldl (fun a tag => assocSet a tag now) acc).lookup t = some now := by
  induction ts with
  | nil =>
    intro acc t h
    rcases h with h | h
    · cases h
    · simpa using h
  | cons t0 rest ih =>
    intro acc t h
    simp only [List.foldl_cons]
    rcases h with h | h
    · rcases List.mem_cons.mp h with rfl | hm
      · by_cases hr : t ∈ rest
        · exact ih _ _ (Or.inl hr)
        · exact ih _ _ (Or.inr (lookup_assocSet_self _ _ _))
      · exact ih _ _ (Or.inl hm)
    · by_cases he : t = t0
      · subst he; exact ih _ _ (Or.inr (lookup_assocSet_self _ _ _))
      · exact ih _ _ (Or.inr (by rw [lookup_assocSet_ne _ _ _ he]; exact h))

theorem string_data_append (a b : String) : (a ++ b).data = a.data ++ b.data := by
  cases a; cases b; rfl

theorem string_mk_append (a b : String) :
    String.mk (a.data ++ b.data) = a ++ b := by
  cases a; cases b; rfl

theorem str_append_left_cancel {a b c : String} (h : a ++ b = a ++ c) : b = c := by
  have h2 := congrArg String.data h
  rw [string_data_append, string_data_append] at h2
  have h3 := List.append_cancel_left h2
  cases b; cases c; exact congrArg String.mk h3

theorem str_append_ne_of_ne (x : String) {s1 s2 : String} (h : s1 ≠ s2) :
    x ++ s1 ≠ x ++ s2 :=
  fun e => h (str_append_left_cancel e)

theorem str_ne_of_head {a b : String} (h : a.data.head? ≠ b.data.head?) : a ≠ b :=
  fun e => h (congrArg (fun s => s.data.head?) e)

theorem str_append_assoc (a b c : String) : a ++ b ++ c = a ++ (b ++ c) := by
  cases a; cases b; cases c; exact congrArg String.mk (List.append_assoc _ _ _)

theorem replaceSuffix_append (x suf repl : String) :
    replaceSuffix (x ++ suf) suf repl = x ++ repl := by
  unfold replaceSuffix
  have hsuf : suf.data.isSuffixOf (x ++ suf).data := by
    rw [List.isSuffixOf_iff_suffix, string_data_append]
    exact List.suffix_append x.data suf.data
  rw [if_pos hsuf, string_data_append, List.length_append, Nat.add_sub_cancel,
    List.take_left, string_mk_append]

/-! ### State-component lemmas for the modelled operations -/

@[simp] theorem readFileE_snd (w : World) (p : String) :
    (readFileE w p).2 = { w with reads := w.reads ++ [p] } := by
  unfold readFileE; cases lookupFile w p <;> rfl

@[simp] theorem statE_snd (w : World) (p : String) :
    (statE w p).2 = { w with reads := w.reads ++ [p] } := by
  unfold statE; cases lookupFile w p <;> rfl

theorem readFileE_fst (w : World) (p : String) :
    (readFileE w p).1 = (match lookupFile w p with
      | some e => Except.ok e.content
      | none => Except.error ()) := by
  unfold readFileE; cases lookupFile w p <;> rfl

theorem statE_fst (w : World) (p : String) :
    (statE w p).1 = (match lookupFile w p with
      | some e => Except.ok e.mtime
      | none => Except.error ()) := by
  unfold statE; cases lookupFile w p <;> rfl

@[simp] theorem lookupFile_set_reads (w : World) (r : List String) (p : String) :
    lookupFile { w with reads := r } p = lookupFile w p := rfl

@[simp] theorem writeFileE_snd_memoryCache (w : World) (p : String) (c : FileContent) (now : Nat) :
    (writeFileE w p c now).2.memoryCache = w.memoryCache := by
  unfold writeFileE; split <;> rfl

@[simp] theorem writeFileE_snd_tagsManifest (w : World) (p : String) (c : FileContent) (now : Nat) :
    (writeFileE w p c now).2.tagsManifest = w.tagsManifest := by
  unfold writeFileE; split <;> rfl

@[simp] theorem writeFileE_snd_reads (w : World) (p : String) (c : FileContent) (now : Nat) :
    (writeFileE w p c now).2.reads = w.reads := by
  unfold writeFileE; split <;> rfl

@[simp] theorem writeFileE_snd_writeFailures (w : World) (p : String) (c : FileContent) (now : Nat) :
    (writeFileE w p c now).2.writeFailures = w.writeFailures := by
  unfold writeFileE; split <;> rfl

@[simp] theorem writeFileE_snd_writes (w : World) (p : String) (c : FileContent) (now : Nat) :
    (writeFileE w p c now).2.writes = w.writes ++ [p] := by
  unfold writeFileE; split <;> rfl

theorem writeFileE_fst_of_ok {w : World} {p : String} (c : FileContent) (now : Nat)
    (h : p ∉ w.writeFailures) : (writeFileE w p c now).1 = true := by
  unfold writeFileE; rw [if_neg h]

theorem writeFileE_fst_of_fail {w : World} {p : String} (c : FileContent) (now : Nat)
    (h : p ∈ w.writeFailures) : (writeFileE w p c now).1 = false := by
  unfold writeFileE; rw [if_pos h]

theorem writeFileE_files_of_fail {w : World} {p : String} (c : FileContent) (now : Nat)
    (h : p ∈ w.writeFailures) : (writeFileE w p c now).2.files = w.files := by
  unfold writeFileE; rw [if_pos h]

theorem writeFileE_lookup_self {w : World} {p : String} (c : FileContent) (now : Nat)
    (h : p ∉ w.writeFailures) :
    lookupFile (writeFileE w p c now).2 p = some (FileEntry.mk c now) := by
  unfold writeFileE; rw [if_neg h]
  simp [lookupFile, lookup_assocSet_self]

theorem writeFileE_lookup_ne {w : World} {p q : String} (c : FileContent) (now : Nat)
    (h : q ≠ p) : lookupFile (writeFileE w p c now).2 q = lookupFile w q := by
  unfold writeFileE; split
  · rfl
  · simp [lookupFile, lookup_assocSet_ne _ _ _ h]

@[simp] theorem memSet_files (w : World) (k : String) (v : CacheHandlerValue) :
    (memSet w k v).files = w.files := by
  unfold memSet; cases w.memoryCache <;> rfl

@[simp] theorem memSet_tagsManifest (w : World) (k : String) (v : CacheHandlerValue) :
    (memSet w k v).tagsManifest = w.tagsManifest := by
  unfold memSet; cases w.memoryCache <;> rfl

@[simp] theorem memSet_reads (w : World) (k : String) (v : CacheHandlerValue) :
    (memSet w k v).reads = w.reads := by
  unfold memSet; cases w.memoryCache <;> rfl

@[simp] theorem memSet_writes (w : World) (k : String) (v : CacheHandlerValue) :
    (memSet w k v).writes = w.writes := by
  unfold memSet; cases w.memoryCache <;> rfl

@[simp] theorem memSet_writeFailures (w : World) (k : String) (v : CacheHandlerValue) :
    (memSet w k v).writeFailures = w.writeFailures := by
  unfold memSet; cases w.memoryCache <;> rfl

@[simp] theorem memSet_memoryCache_isSome (w : World) (k : String) (v : CacheHandlerValue) :
    (memSet w k v).memoryCache.isSome = w.memoryCache.isSome := by
  unfold memSet; cases hm : w.memoryCache <;> simp [hm]

theorem memGet_memSet_self {w : World} (k : String) (v : CacheHandlerValue)
    (h : w.memoryCache.isSome = true) : memGet (memSet w k v) k = some v := by
  unfold memGet memSet
  cases hm : w.memoryCache with
  | none => rw [hm] at h; cases h
  | some mc => simp [lookup_assocSet_self]

@[simp] theorem loadTagsManifest_files (c : FileSystemCache) (w : World) :
    (loadTagsManifest c w).files = w.files := by
  unfold loadTagsManifest
  split
  · rfl
  · split
    · rfl
    · simp only [readFileE_snd]
      split <;> rfl

@[simp] theorem loadTagsManifest_memoryCache (c : FileSystemCache) (w : World) :
    (loadTagsManifest c w).memoryCache = w.memoryCache := by
  unfold loadTagsManifest
  split
  · rfl
  · split
    · rfl
    · simp only [readFileE_snd]
      split <;> rfl

@[simp] theorem loadTagsManifest_writes (c : FileSystemCache) (w : World) :
    (loadTagsManifest c w).writes = w.writes := by
  unfold loadTagsManifest
  split
  · rfl
  · split
    · rfl
    · simp only [readFileE_snd]
      split <;> rfl

@[simp] theorem loadTagsManifest_writeFailures (c : FileSystemCache) (w : World) :
    (loadTagsManifest c w).writeFailures = w.writeFailures := by
  unfold loadTagsManifest
  split
  · rfl
  · split
    · rfl
    · simp only [readFileE_snd]
      split <;> rfl

theorem loadTagsManifest_of_some {w : World} (c : FileSystemCache) {m : TagsManifest}
    (h : w.tagsManifest = some m) : loadTagsManifest c w = w := by
  unfold loadTagsManifest
  split
  · rfl
  · rw [if_pos (by rw [h]; rfl)]

theorem loadTagsManifest_isSome {c : FileSystemCache} {p : String} (w : World)
    (h : c.tagsManifestPath = some p) :
    (loadTagsManifest c w).tagsManifest.isSome = true := by
  unfold loadTagsManifest
  rw [h]
  split
  · rename_i heq; cases heq
  · split
    · assumption
    · simp only [readFileE_snd]
      split <;> rfl

@[simp] theorem stalenessCheck_snd_files (c : FileSystemCache) (ctx : GetCtx) (now : Nat)
    (d : Option CacheHandlerValue) (w : World) :
    (stalenessCheck c ctx now d w).2.files = w.files := by
  unfold stalenessCheck
  dsimp only []
  repeat' split
  all_goals simp

@[simp] theorem stalenessCheck_snd_memoryCache (c : FileSystemCache) (ctx : GetCtx) (now : Nat)
    (d : Option CacheHandlerValue) (w : World) :
    (stalenessCheck c ctx now d w).2.memoryCache = w.memoryCache := by
  unfold stalenessCheck
  dsimp only []
  repeat' split
  all_goals simp

@[simp] theorem stalenessCheck_snd_writes (c : FileSystemCache) (ctx : GetCtx) (now : Nat)
    (d : Option CacheHandlerValue) (w : World) :
    (stalenessCheck c ctx now d w).2.writes = w.writes := by
  unfold stalenessCheck
  dsimp only []
  repeat' split
  all_goals simp

theorem set_memoryCache_isSome (c : FileSystemCache) (key : String)
    (data : Option CachedRouteValue) (ctx : SetCtx) (now : Nat) (w : World) :
    (set c key data ctx now w).2.memoryCache.isSome = w.memoryCache.isSome := by
  unfold set
  dsimp only []
  repeat' split
  all_goals simp

theorem diskReadCore_memoryCache_isSome (c : FileSystemCache) (key : String)
    (ctx : GetCtx) (now : Nat) (w : World) :
    (diskReadCore c key ctx now w).2.memoryCache.isSome = w.memoryCache.isSome := by
  unfold diskReadCore
  dsimp only []
  repeat' split
  all_goals simp [set_memoryCache_isSome]

theorem loadTagsManifest_of_path_none {c : FileSystemCache} (w : World)
    (h : c.tagsManifestPath = none) : loadTagsManifest c w = w := by
  unfold loadTagsManifest; rw [h]

/-! ### Claim C5 -/

/-- C5: memory-tier construction is first-configuration-wins at the process
level: once any constructor call has created the process-wide memory cache,
every later constructor call (whether it configures a size limit or no memory
tier at all) leaves that same instance in place, never creating a second
instance or destroying the existing one. -/
theorem c5_memory_tier_first_configuration_wins (ctx : CtorCtx) (w : World)
    (mc : MemCacheInst) (h : w.memoryCache = some mc) :
    ((mkFileSystemCache ctx w).2).memoryCache = some mc := by
  unfold mkFileSystemCache loadTagsManifestSync
  dsimp only []
  repeat' split
  all_goals simp_all

/-- Witness for C5: a process whose memory cache was created with capacity 7
keeps exactly that instance across a later constructor call that configures no
memory tier. -/
theorem c5_memory_tier_first_configuration_wins_witness :
    (World.mk [] (some (MemCacheInst.mk 7 [])) none [] [] []).memoryCache
        = some (MemCacheInst.mk 7 []) ∧
    ((mkFileSystemCache (CtorCtx.mk true "" [] 0)
        (World.mk [] (some (MemCacheInst.mk 7 [])) none [] [] [])).2).memoryCache
        = some (MemCacheInst.mk 7 []) :=
  ⟨rfl, c5_memory_tier_first_configuration_wins (CtorCtx.mk true "" [] 0)
    (World.mk [] (some (MemCacheInst.mk 7 [])) none [] [] [])
    (MemCacheInst.mk 7 []) rfl⟩

/-! ### Claim C6 -/

/-- C6: manifest loading is idempotent and failure-initializing: (1) a second
load in sequence is a no-op (the whole world, its read log included, is
unchanged, so the file is read at most once); (2) when an in-memory manifest
already exists the load changes nothing and reads nothing; (3) when no
manifest is in memory and the file is missing or does not parse as a manifest,
the load initializes the in-memory manifest to version 1 with empty items
instead of propagating an error (the modelled load is total). -/
theorem c6_manifest_load_idempotent_and_defaulting :
    (∀ (c : FileSystemCache) (w : World),
        loadTagsManifest c (loadTagsManifest c w) = loadTagsManifest c w)
    ∧ (∀ (c : FileSystemCache) (w : World) (m : TagsManifest),
        w.tagsManifest = some m → loadTagsManifest c w = w)
    ∧ (∀ (c : FileSystemCache) (w : World) (p : String),
        c.tagsManifestPath = some p → w.tagsManifest = none →
        (∀ e, lookupFile w p = some e → ∀ m, e.content ≠ FileContent.manifestJson m) →
        (loadTagsManifest c w).tagsManifest = some (TagsManifest.mk 1 [])) := by
  refine ⟨?_, ?_, ?_⟩
  · intro c w
    cases hc : c.tagsManifestPath with
    | none => rw [loadTagsManifest_of_path_none _ hc, loadTagsManifest_of_path_none _ hc]
    | some p =>
      cases hm : (loadTagsManifest c w).tagsManifest with
      | none =>
        have hs := loadTagsManifest_isSome w hc
        rw [hm] at hs; cases hs
      | some m => exact loadTagsManifest_of_some c hm
  · intro c w m h
    exact loadTagsManifest_of_some c h
  · intro c w p hc hnone hbad
    unfold loadTagsManifest
    rw [hc]
    dsimp only []
    rw [if_neg (by rw [hnone]; simp)]
    rw [readFileE_fst]
    cases hl : lookupFile w p with
    | none => simp
    | some e =>
      cases he : e.content with
      | manifestJson m => exact absurd he (hbad e hl m)
      | text s => simp [he]
      | fetchJson v => simp [he]
      | metaJson m => simp [he]
      | dataJson d => simp [he]
      | corrupt => simp [he]

/-- Witness for C6: with a manifest already in memory the load is the
identity, and with no manifest and a missing file the load initializes the
default manifest. -/
theorem c6_manifest_load_idempotent_and_defaulting_witness :
    (World.mk [] none (some (TagsManifest.mk 1 [("a", 5)])) [] [] []).tagsManifest
        = some (TagsManifest.mk 1 [("a", 5)]) ∧
    loadTagsManifest (FileSystemCache.mk true "d" [] (some "d/../cache/fetch-cache/tags-manifest.json"))
        (World.mk [] none (some (TagsManifest.mk 1 [("a", 5)])) [] [] [])
      = World.mk [] none (some (TagsManifest.mk 1 [("a", 5)])) [] [] [] ∧
    (loadTagsManifest (FileSystemCache.mk true "d" [] (some "d/../cache/fetch-cache/tags-manifest.json"))
        (World.mk [] none none [] [] [])).tagsManifest
      = some (TagsManifest.mk 1 []) :=
  ⟨rfl,
    c6_manifest_load_idempotent_and_defaulting.2.1
      (FileSystemCache.mk true "d" [] (some "d/../cache/fetch-cache/tags-manifest.json"))
      (World.mk [] none (some (TagsManifest.mk 1 [("a", 5)])) [] [] [])
      (TagsManifest.mk 1 [("a", 5)]) rfl,
    c6_manifest_load_idempotent_and_defaulting.2.2
      (FileSystemCache.mk true "d" [] (some "d/../cache/fetch-cache/tags-manifest.json"))
      (World.mk [] none none [] [] [])
      "d/../cache/fetch-cache/tags-manifest.json" rfl rfl
      (by intro e he m; cases he)⟩

/-! ### Claim C7 -/

/-- C7: for every non-empty tag list, when the write of the merged manifest
fails, revalidateTag swallows the failure (the modelled operation is total and
returns a world, never an error), leaves every file unchanged, and the
in-memory manifest still holds the merged revalidatedAt = now timestamps for
every given tag. -/
theorem c7_revalidate_write_failure_swallowed (c : FileSystemCache)
    (ts : List String) (now : Nat) (w : World) (p : String)
    (hts : ts ≠ [])
    (hp : c.tagsManifestPath = some p)
    (hfail : p ∈ w.writeFailures) :
    (∃ m, (revalidateTag c (TagOrTags.many ts) now w).tagsManifest = some m ∧
        ∀ t ∈ ts, m.items.lookup t = some now)
    ∧ (revalidateTag c (TagOrTags.many ts) now w).files = w.files := by
  have hlen : ¬ ts.length = 0 := by
    intro h0
    exact hts (List.length_eq_zero.mp h0)
  obtain ⟨m0, hm0⟩ := Option.isSome_iff_exists.mp (loadTagsManifest_isSome w hp)
  unfold revalidateTag
  dsimp only []
  rw [if_neg hlen, hm0, hp]
  have hfail2 : p ∈ ({ loadTagsManifest c w with
      tagsManifest := some (TagsManifest.mk m0.version
        (ts.foldl (fun acc tag => assocSet acc tag now) m0.items)) } : World).writeFailures := by
    simpa using hfail
  constructor
  · refine ⟨TagsManifest.mk m0.version
      (ts.foldl (fun acc tag => assocSet acc tag now) m0.items), by simp, ?_⟩
    intro t ht
    exact lookup_foldl_assocSet now ts _ t (Or.inl ht)
  · rw [writeFileE_files_of_fail _ _ hfail2]
    simp

/-- Witness for C7: revalidating tag a at time 100 with a failing manifest
write leaves the files unchanged and records a revalidatedAt of 100 for a in
the in-memory manifest. -/
theorem c7_revalidate_write_failure_swallowed_witness :
    ((["a"] : List String) ≠ []) ∧
    (FileSystemCache.mk true "d" [] (some "mp")).tagsManifestPath = some "mp" ∧
    ("mp" ∈ (World.mk [] none (some (TagsManifest.mk 1 [("b", 3)])) [] [] ["mp"]).writeFailures) ∧
    ((∃ m, (revalidateTag (FileSystemCache.mk true "d" [] (some "mp"))
          (TagOrTags.many ["a"]) 100
          (World.mk [] none (some (TagsManifest.mk 1 [("b", 3)])) [] [] ["mp"])).tagsManifest
        = some m ∧ ∀ t ∈ (["a"] : List String), m.items.lookup t = some 100)
      ∧ (revalidateTag (FileSystemCache.mk true "d" [] (some "mp"))
          (TagOrTags.many ["a"]) 100
          (World.mk [] none (some (TagsManifest.mk 1 [("b", 3)])) [] [] ["mp"])).files
        = (World.mk [] none (some (TagsManifest.mk 1 [("b", 3)])) [] [] ["mp"]).files) :=
  ⟨by decide, rfl, by decide,
    c7_revalidate_write_failure_swallowed (FileSystemCache.mk true "d" [] (some "mp"))
      ["a"] 100 (World.mk [] none (some (TagsManifest.mk 1 [("b", 3)])) [] [] ["mp"])
      "mp" (by decide) rfl (by decide)⟩

/-! ### Claim C2 -/

/-- C2: the claim (and the comment at lines 147-149 of the source) say that
revalidateTag re-reads the manifest from the persistent file before merging,
discarding the cached in-memory copy. The code does not: loadTagsManifest
returns immediately when an in-memory manifest exists. Here the in-memory
manifest is empty while the on-disk file records tag b revalidated at 50;
revalidateTag for tag a at time 100 performs no file read at all (the read log
stays empty) and overwrites the file with a manifest that has lost b. -/
theorem c2_revalidate_merges_into_stale_memory_copy :
    (revalidateTag (FileSystemCache.mk true "d" [] (some (tagsManifestPathOf "d")))
        (TagOrTags.many ["a"]) 100
        (World.mk
          [(tagsManifestPathOf "d",
            FileEntry.mk (FileContent.manifestJson (TagsManifest.mk 1 [("b", 50)])) 10)]
          none (some (TagsManifest.mk 1 [])) [] [] [])).reads = [] ∧
    lookupFile
      (revalidateTag (FileSystemCache.mk true "d" [] (some (tagsManifestPathOf "d")))
        (TagOrTags.many ["a"]) 100
        (World.mk
          [(tagsManifestPathOf "d",
            FileEntry.mk (FileContent.manifestJson (TagsManifest.mk 1 [("b", 50)])) 10)]
          none (some (TagsManifest.mk 1 [])) [] [] []))
      (tagsManifestPathOf "d")
      = some (FileEntry.mk (FileContent.manifestJson (TagsManifest.mk 1 [("a", 100)])) 100) := by
  constructor <;> rfl

/-! ### Claim C10 -/

theorem stalenessCheck_of_appRoute (c : FileSystemCache) (ctx : GetCtx) (now : Nat)
    (d : CacheHandlerValue) (w : World) (b : FileContent) (hh : Option Headers)
    (st : Option Nat) (hv : d.value = some (CachedRouteValue.appRoute b hh st)) :
    stalenessCheck c ctx now (some d) w = (some d, w) := by
  unfold stalenessCheck
  dsimp only []
  rw [hv]
  dsimp only []
  simp [CachedRouteValue.kindOf]

theorem appRouteGet_fst_congr (c1 c2 : FileSystemCache) (key : String) (w1 w2 : World)
    (hsd : c1.serverDistDir = c2.serverDistDir) (hf : w1.files = w2.files) :
    (appRouteGet c1 key w1).1 = (appRouteGet c2 key w2).1 := by
  have hlf : ∀ p, lookupFile w1 p = lookupFile w2 p := fun p => by
    unfold lookupFile; rw [hf]
  unfold appRouteGet
  dsimp only []
  simp only [readFileE_fst, readFileE_snd, statE_fst, statE_snd, lookupFile_set_reads,
    hlf, hsd]
  cases hl1 : lookupFile w2
      (getFilePath c2.serverDistDir (key ++ ".body") IncrementalCacheKind.APP_ROUTE) with
  | none => rfl
  | some e =>
    dsimp only []
    cases hl2 : lookupFile w2
        (replaceSuffix (getFilePath c2.serverDistDir (key ++ ".body")
          IncrementalCacheKind.APP_ROUTE) ".body" NEXT_META_SUFFIX) with
    | none => rfl
    | some e2 =>
      cases he2 : e2.content <;> simp [he2]

/-- C10: RouteResponse (APP_ROUTE) entries are never invalidated by tag
revalidation: a get of kind APP_ROUTE whose memory-tier candidate (if any) is
an APP_ROUTE entry returns the same result whatever the in-memory tags
manifest and whatever the process-local revalidated-tags list; the APP_ROUTE
read path performs no staleness evaluation at all. -/
theorem c10_app_route_independent_of_manifest (c : FileSystemCache) (key : String)
    (ctx : GetCtx) (now : Nat) (w : World) (m : Option TagsManifest) (rts : List String)
    (hk : ctx.kind = IncrementalCacheKind.APP_ROUTE)
    (hmem : ∀ d, memGet w key = some d →
      ∃ b hh st, d.value = some (CachedRouteValue.appRoute b hh st)) :
    (get (FileSystemCache.mk c.flushToDisk c.serverDistDir rts c.tagsManifestPath)
        key ctx now { w with tagsManifest := m }).1
      = (get c key ctx now w).1 := by
  unfold get
  have hmg : memGet { w with tagsManifest := m } key = memGet w key := rfl
  rw [hmg]
  cases hd : memGet w key with
  | some d =>
    dsimp only []
    obtain ⟨b, hh, st, hv⟩ := hmem d hd
    rw [stalenessCheck_of_appRoute _ ctx now d _ b hh st hv,
      stalenessCheck_of_appRoute _ ctx now d _ b hh st hv]
  | none =>
    dsimp only []
    rw [hk]
    dsimp only []
    exact appRouteGet_fst_congr _ _ key _ _ rfl rfl

/-- Witness for C10: with an APP_ROUTE body and sidecar on disk, an empty
memory tier, and kind APP_ROUTE, wiping the in-memory manifest and the
revalidated-tags list does not change the result of get. -/
theorem c10_app_route_independent_of_manifest_witness :
    (GetCtx.mk (some ["a"]) none IncrementalCacheKind.APP_ROUTE false false).kind
        = IncrementalCacheKind.APP_ROUTE ∧
    (get (FileSystemCache.mk true "dist" [] (some (tagsManifestPathOf "dist"))) "k"
        (GetCtx.mk (some ["a"]) none IncrementalCacheKind.APP_ROUTE false false) 9
        { (World.mk
            [("dist/app/k.body", FileEntry.mk (FileContent.text "B") 3),
             ("dist/app/k.meta",
              FileEntry.mk (FileContent.metaJson (RouteMetadata.mk (some 200) none none)) 3)]
            none (some (TagsManifest.mk 1 [("a", 999)])) [] [] []) with
          tagsManifest := none }).1
      = (get (FileSystemCache.mk true "dist" ["a"] (some (tagsManifestPathOf "dist"))) "k"
        (GetCtx.mk (some ["a"]) none IncrementalCacheKind.APP_ROUTE false false) 9
        (World.mk
          [("dist/app/k.body", FileEntry.mk (FileContent.text "B") 3),
           ("dist/app/k.meta",
            FileEntry.mk (FileContent.metaJson (RouteMetadata.mk (some 200) none none)) 3)]
          none (some (TagsManifest.mk 1 [("a", 999)])) [] [] [])).1 :=
  ⟨rfl,
    c10_app_route_independent_of_manifest
      (FileSystemCache.mk true "dist" ["a"] (some (tagsManifestPathOf "dist"))) "k"
      (GetCtx.mk (some ["a"]) none IncrementalCacheKind.APP_ROUTE false false) 9
      (World.mk
        [("dist/app/k.body", FileEntry.mk (FileContent.text "B") 3),
         ("dist/app/k.meta",
          FileEntry.mk (FileContent.metaJson (RouteMetadata.mk (some 200) none none)) 3)]
        none (some (TagsManifest.mk 1 [("a", 999)])) [] [] [])
      none [] rfl (by intro d hd; cases hd)⟩

/-! ### Claim C4 -/

theorem appRouteGet_snd_memoryCache (c : FileSystemCache) (key : String) (w : World) :
    (appRouteGet c key w).2.memoryCache = w.memoryCache := by
  unfold appRouteGet
  dsimp only []
  repeat' split
  all_goals simp

theorem memGet_congr_memoryCache {w1 w2 : World} (key : String)
    (h : w1.memoryCache = w2.memoryCache) : memGet w1 key = memGet w2 key := by
  unfold memGet; rw [h]

/-- C4 (amended): on a memory miss, a successful persistent read of a kind
other than APP_ROUTE (FETCH, APP_PAGE, PAGES) populates the memory tier with
the deserialized entry — the entry is in the memory tier in the final state
whatever the staleness verdict, so population happens before staleness
evaluation and before the return; for kind APP_ROUTE, however, the successful
persistent read returns the entry directly and never touches the memory tier. -/
theorem c4_memory_population_amended :
    (∀ (c : FileSystemCache) (key : String) (ctx : GetCtx) (now : Nat) (w : World)
        (d : CacheHandlerValue) (w1 : World),
      ctx.kind ≠ IncrementalCacheKind.APP_ROUTE →
      memGet w key = none →
      w.memoryCache.isSome = true →
      diskReadCore c key ctx now w = (CoreOut.dataIs d, w1) →
      memGet (get c key ctx now w).2 key = some d)
    ∧ (∀ (c : FileSystemCache) (key : String) (ctx : GetCtx) (now : Nat) (w : World),
      ctx.kind = IncrementalCacheKind.APP_ROUTE →
      memGet w key = none →
      (get c key ctx now w).2.memoryCache = w.memoryCache) := by
  constructor
  · intro c key ctx now w d w1 hk hmem hmc hcore
    have hw1 : w1.memoryCache.isSome = true := by
      have h := diskReadCore_memoryCache_isSome c key ctx now w
      rw [hcore] at h
      dsimp only [] at h
      rw [hmc] at h
      exact h
    unfold get
    rw [hmem]
    dsimp only []
    cases hk2 : ctx.kind
    case APP_ROUTE => exact absurd hk2 hk
    all_goals
      dsimp only []
    all_goals
      rw [hcore]
    all_goals
      dsimp only []
    all_goals
      rw [memGet_congr_memoryCache key
        (stalenessCheck_snd_memoryCache c ctx now (some d) (memSet w1 key d))]
    all_goals
      exact memGet_memSet_self key d hw1
  · intro c key ctx now w hk hmem
    unfold get
    rw [hmem]
    dsimp only []
    rw [hk]
    dsimp only []
    exact appRouteGet_snd_memoryCache c key w

/-- C4 counterexample: a get of kind APP_ROUTE with an existing (empty)
memory-tier instance and a complete APP_ROUTE entry on disk succeeds, yet the
memory tier is left unpopulated — contradicting the claim that every
successful persistent read, including APP_ROUTE, populates the memory tier
before the entry is returned. -/
theorem c4_app_route_skips_memory_population :
    ((get (FileSystemCache.mk true "dist" [] (some (tagsManifestPathOf "dist"))) "k"
        (GetCtx.mk none none IncrementalCacheKind.APP_ROUTE false false) 9
        (World.mk
          [("dist/app/k.body", FileEntry.mk (FileContent.text "B") 3),
           ("dist/app/k.meta",
            FileEntry.mk (FileContent.metaJson (RouteMetadata.mk (some 200) none none)) 3)]
          (some (MemCacheInst.mk 100 [])) (some (TagsManifest.mk 1 [])) [] [] [])).1).isSome
      = true ∧
    (get (FileSystemCache.mk true "dist" [] (some (tagsManifestPathOf "dist"))) "k"
        (GetCtx.mk none none IncrementalCacheKind.APP_ROUTE false false) 9
        (World.mk
          [("dist/app/k.body", FileEntry.mk (FileContent.text "B") 3),
           ("dist/app/k.meta",
            FileEntry.mk (FileContent.metaJson (RouteMetadata.mk (some 200) none none)) 3)]
          (some (MemCacheInst.mk 100 [])) (some (TagsManifest.mk 1 [])) [] [] [])).2.memoryCache
      = some (MemCacheInst.mk 100 []) := by
  constructor <;> rfl

/-- Witness for C4 (amended): an APP_PAGE fallback read from disk lands in the
memory tier, and an APP_ROUTE read leaves the memory tier untouched. -/
theorem c4_memory_population_amended_witness :
    memGet (get (FileSystemCache.mk true "dist" [] (some (tagsManifestPathOf "dist"))) "k"
        (GetCtx.mk none none IncrementalCacheKind.APP_PAGE false true) 9
        (World.mk [("dist/app/k.html", FileEntry.mk (FileContent.text "H") 4)]
          (some (MemCacheInst.mk 50 [])) (some (TagsManifest.mk 1 [])) [] [] [])).2 "k"
      = some (CacheHandlerValue.mk (some 4)
          (some (CachedRouteValue.appPage "H" none none none none))) ∧
    (get (FileSystemCache.mk true "dist" [] (some (tagsManifestPathOf "dist"))) "k2"
        (GetCtx.mk none none IncrementalCacheKind.APP_ROUTE false false) 9
        (World.mk [] (some (MemCacheInst.mk 50 [])) (some (TagsManifest.mk 1 []))
          [] [] [])).2.memoryCache
      = (World.mk [] (some (MemCacheInst.mk 50 [])) (some (TagsManifest.mk 1 []))
          [] [] []).memoryCache :=
  ⟨c4_memory_population_amended.1
      (FileSystemCache.mk true "dist" [] (some (tagsManifestPathOf "dist"))) "k"
      (GetCtx.mk none none IncrementalCacheKind.APP_PAGE false true) 9
      (World.mk [("dist/app/k.html", FileEntry.mk (FileContent.text "H") 4)]
        (some (MemCacheInst.mk 50 [])) (some (TagsManifest.mk 1 [])) [] [] [])
      (CacheHandlerValue.mk (some 4)
        (some (CachedRouteValue.appPage "H" none none none none)))
      (World.mk [("dist/app/k.html", FileEntry.mk (FileContent.text "H") 4)]
        (some (MemCacheInst.mk 50 [])) (some (TagsManifest.mk 1 []))
        ["dist/app/k.html", "dist/app/k.html"] [] [])
      (by decide) rfl rfl (by rfl),
    c4_memory_population_amended.2
      (FileSystemCache.mk true "dist" [] (some (tagsManifestPathOf "dist"))) "k2"
      (GetCtx.mk none none IncrementalCacheKind.APP_ROUTE false false) 9
      (World.mk [] (some (MemCacheInst.mk 50 [])) (some (TagsManifest.mk 1 [])) [] [] [])
      rfl rfl⟩

/-! ### Claim C8 -/

theorem diskReadCore_fst_of_content_missing (c : FileSystemCache) (key : String)
    (ctx : GetCtx) (now : Nat) (w : World)
    (hmiss : lookupFile w (getFilePath c.serverDistDir
      (if ctx.kind = IncrementalCacheKind.FETCH then key else key ++ ".html")
      ctx.kind) = none) :
    (diskReadCore c key ctx now w).1 = CoreOut.thrown := by
  unfold diskReadCore
  dsimp only []
  rw [readFileE_fst, hmiss]

theorem get_fst_none_of_core_thrown (c : FileSystemCache) (key : String) (ctx : GetCtx)
    (now : Nat) (w : World)
    (hk : ctx.kind ≠ IncrementalCacheKind.APP_ROUTE)
    (hmem : memGet w key = none)
    (hth : (diskReadCore c key ctx now w).1 = CoreOut.thrown) :
    (get c key ctx now w).1 = none := by
  unfold get
  rw [hmem]
  dsimp only []
  cases hk2 : ctx.kind
  case APP_ROUTE => exact absurd hk2 hk
  all_goals
    dsimp only []
  all_goals
    cases hdc : diskReadCore c key ctx now w with
    | mk out w1 =>
      rw [hdc] at hth
      dsimp only [] at hth
      subst hth
      rfl

theorem appRouteGet_fst_none_of_body_missing (c : FileSystemCache) (key : String)
    (w : World)
    (hmiss : lookupFile w (getFilePath c.serverDistDir (key ++ ".body")
      IncrementalCacheKind.APP_ROUTE) = none) :
    (appRouteGet c key w).1 = none := by
  unfold appRouteGet
  dsimp only []
  rw [readFileE_fst, hmiss]

theorem appRouteGet_fst_none_of_meta_bad (c : FileSystemCache) (key : String) (w : World)
    (hbad : ∀ e, lookupFile w
        (replaceSuffix (getFilePath c.serverDistDir (key ++ ".body")
          IncrementalCacheKind.APP_ROUTE) ".body" NEXT_META_SUFFIX) = some e →
      ∀ m, e.content ≠ FileContent.metaJson m) :
    (appRouteGet c key w).1 = none := by
  unfold appRouteGet
  dsimp only []
  rw [readFileE_fst]
  cases hl1 : lookupFile w
      (getFilePath c.serverDistDir (key ++ ".body") IncrementalCacheKind.APP_ROUTE) with
  | none => rfl
  | some e =>
    dsimp only []
    simp only [readFileE_snd, statE_fst, statE_snd, lookupFile_set_reads]
    rw [hl1]
    dsimp only []
    rw [readFileE_fst]
    simp only [lookupFile_set_reads]
    cases hl2 : lookupFile w
        (replaceSuffix (getFilePath c.serverDistDir (key ++ ".body")
          IncrementalCacheKind.APP_ROUTE) ".body" NEXT_META_SUFFIX) with
    | none => rfl
    | some e2 =>
      cases he2 : e2.content with
      | metaJson m => exact absurd he2 (hbad e2 hl2 m)
      | text s => simp [he2]
      | fetchJson v => simp [he2]
      | dataJson d => simp [he2]
      | manifestJson m => simp [he2]
      | corrupt => simp [he2]

theorem diskReadCore_fst_thrown_of_pages_data_bad (c : FileSystemCache) (key : String)
    (ctx : GetCtx) (now : Nat) (w : World)
    (hk : ctx.kind = IncrementalCacheKind.PAGES) (hf : ctx.isFallback = false)
    (hbad : ∀ e, lookupFile w (getFilePath c.serverDistDir (key ++ NEXT_DATA_SUFFIX)
        IncrementalCacheKind.PAGES) = some e →
      ∀ d, e.content ≠ FileContent.dataJson d) :
    (diskReadCore c key ctx now w).1 = CoreOut.thrown := by
  unfold diskReadCore
  dsimp only []
  rw [hk]
  rw [if_neg (show ¬(IncrementalCacheKind.PAGES = IncrementalCacheKind.FETCH) from by decide)]
  simp only [readFileE_fst, readFileE_snd, statE_fst, statE_snd, lookupFile_set_reads, hf,
    if_neg (show ¬(false = true) from by decide)]
  cases hl1 : lookupFile w
      (getFilePath c.serverDistDir (key ++ ".html") IncrementalCacheKind.PAGES) with
  | none => rfl
  | some e =>
    dsimp only []
    cases hl2 : lookupFile w
        (getFilePath c.serverDistDir (key ++ NEXT_DATA_SUFFIX)
          IncrementalCacheKind.PAGES) with
    | none => rfl
    | some e2 =>
      cases he2 : e2.content with
      | dataJson d => exact absurd he2 (hbad e2 hl2 d)
      | text s => simp [he2]
      | fetchJson v => simp [he2]
      | metaJson m => simp [he2]
      | manifestJson m => simp [he2]
      | corrupt => simp [he2]

theorem diskReadCore_fst_thrown_of_rsc_missing (c : FileSystemCache) (key : String)
    (ctx : GetCtx) (now : Nat) (w : World)
    (hk : ctx.kind = IncrementalCacheKind.APP_PAGE) (hf : ctx.isFallback = false)
    (hmiss : lookupFile w (getFilePath c.serverDistDir
      (key ++ (if ctx.isRoutePPREnabled then RSC_PREFETCH_SUFFIX else RSC_SUFFIX))
      IncrementalCacheKind.APP_PAGE) = none) :
    (diskReadCore c key ctx now w).1 = CoreOut.thrown := by
  unfold diskReadCore
  dsimp only []
  rw [hk]
  rw [if_neg (show ¬(IncrementalCacheKind.APP_PAGE = IncrementalCacheKind.FETCH) from by decide)]
  simp only [readFileE_fst, readFileE_snd, statE_fst, statE_snd, lookupFile_set_reads, hf,
    if_neg (show ¬(false = true) from by decide)]
  cases hl1 : lookupFile w
      (getFilePath c.serverDistDir (key ++ ".html") IncrementalCacheKind.APP_PAGE) with
  | none => rfl
  | some e =>
    dsimp only []
    rw [hmiss]

theorem stalenessCheck_fst_some_of_no_headers (c : FileSystemCache) (ctx : GetCtx)
    (now : Nat) (d : CacheHandlerValue) (w : World) (v : CachedRouteValue)
    (hd : d.value = some v)
    (hkind : v.kindOf = CachedRouteKind.APP_PAGE ∨ v.kindOf = CachedRouteKind.PAGES)
    (hh : v.headersOf = none) :
    (stalenessCheck c ctx now (some d) w).1 = some d := by
  unfold stalenessCheck
  dsimp only []
  rw [hd]
  dsimp only []
  rw [if_pos hkind, hh]
  rfl

theorem diskReadCore_appPage_meta_swallowed (c : FileSystemCache) (key : String)
    (ctx : GetCtx) (now : Nat) (w : World) (eh er : FileEntry)
    (hk : ctx.kind = IncrementalCacheKind.APP_PAGE) (hf : ctx.isFallback = false)
    (hhtml : lookupFile w (getFilePath c.serverDistDir (key ++ ".html")
      IncrementalCacheKind.APP_PAGE) = some eh)
    (hbad : ∀ e, lookupFile w
        (replaceSuffix (getFilePath c.serverDistDir (key ++ ".html")
          IncrementalCacheKind.APP_PAGE) ".html" NEXT_META_SUFFIX) = some e →
      ∀ m, e.content ≠ FileContent.metaJson m)
    (hrsc : lookupFile w (getFilePath c.serverDistDir
      (key ++ (if ctx.isRoutePPREnabled then RSC_PREFETCH_SUFFIX else RSC_SUFFIX))
      IncrementalCacheKind.APP_PAGE) = some er) :
    (diskReadCore c key ctx now w).1
      = CoreOut.dataIs (CacheHandlerValue.mk (some eh.mtime)
          (some (CachedRouteValue.appPage eh.content.asText (some er.content)
            none none none))) := by
  unfold diskReadCore
  dsimp only []
  rw [hk]
  rw [if_neg (show ¬(IncrementalCacheKind.APP_PAGE = IncrementalCacheKind.FETCH) from by decide)]
  simp only [readFileE_fst, readFileE_snd, statE_fst, statE_snd, lookupFile_set_reads, hf,
    if_neg (show ¬(false = true) from by decide)]
  rw [hhtml]
  dsimp only []
  cases hl2 : lookupFile w
      (replaceSuffix (getFilePath c.serverDistDir (key ++ ".html")
        IncrementalCacheKind.APP_PAGE) ".html" NEXT_META_SUFFIX) with
  | none =>
    dsimp only []
    rw [hrsc]
    rfl
  | some e2 =>
    cases he2 : e2.content with
    | metaJson m => exact absurd he2 (hbad e2 hl2 m)
    | text s => simp [he2, hrsc]
    | fetchJson v => simp [he2, hrsc]
    | dataJson d => simp [he2, hrsc]
    | manifestJson m => simp [he2, hrsc]
    | corrupt => simp [he2, hrsc]

/-- C8 (amended): every persistent-tier read failure that aborts the read
path makes get return absence — (1) for every kind, a missing content file
(body, html, or fetch JSON file) yields null; (2) for APP_ROUTE, a missing or
unparsable metadata sidecar yields null; (3) for PAGES non-fallback reads, a
missing or unparsable data-payload file yields null; (4) for APP_PAGE
non-fallback reads, a missing rsc data-payload file yields null — and no read
failure is ever propagated as an error (the modelled get is a total function
into an option: every thrown read error is caught). The one exception, which
the original claim wrongly covered, is (5): the APP_PAGE metadata-sidecar
read, whose failure is swallowed by its own inner try/catch — when the html
and rsc files are present, get still returns the entry, with its headers,
status and postponed fields all undefined. -/
theorem c8_read_failures_amended :
    (∀ (c : FileSystemCache) (key : String) (ctx : GetCtx) (now : Nat) (w : World),
      memGet w key = none →
      lookupFile w (getFilePath c.serverDistDir
        (match ctx.kind with
         | IncrementalCacheKind.FETCH => key
         | IncrementalCacheKind.APP_ROUTE => key ++ ".body"
         | _ => key ++ ".html") ctx.kind) = none →
      (get c key ctx now w).1 = none)
    ∧ (∀ (c : FileSystemCache) (key : String) (ctx : GetCtx) (now : Nat) (w : World),
      ctx.kind = IncrementalCacheKind.APP_ROUTE →
      memGet w key = none →
      (∀ e, lookupFile w (replaceSuffix (getFilePath c.serverDistDir (key ++ ".body")
          IncrementalCacheKind.APP_ROUTE) ".body" NEXT_META_SUFFIX) = some e →
        ∀ m, e.content ≠ FileContent.metaJson m) →
      (get c key ctx now w).1 = none)
    ∧ (∀ (c : FileSystemCache) (key : String) (ctx : GetCtx) (now : Nat) (w : World),
      ctx.kind = IncrementalCacheKind.PAGES → ctx.isFallback = false →
      memGet w key = none →
      (∀ e, lookupFile w (getFilePath c.serverDistDir (key ++ NEXT_DATA_SUFFIX)
          IncrementalCacheKind.PAGES) = some e →
        ∀ d, e.content ≠ FileContent.dataJson d) →
      (get c key ctx now w).1 = none)
    ∧ (∀ (c : FileSystemCache) (key : String) (ctx : GetCtx) (now : Nat) (w : World),
      ctx.kind = IncrementalCacheKind.APP_PAGE → ctx.isFallback = false →
      memGet w key = none →
      lookupFile w (getFilePath c.serverDistDir
        (key ++ (if ctx.isRoutePPREnabled then RSC_PREFETCH_SUFFIX else RSC_SUFFIX))
        IncrementalCacheKind.APP_PAGE) = none →
      (get c key ctx now w).1 = none)
    ∧ (∀ (c : FileSystemCache) (key : String) (ctx : GetCtx) (now : Nat) (w : World)
        (eh er : FileEntry),
      ctx.kind = IncrementalCacheKind.APP_PAGE → ctx.isFallback = false →
      memGet w key = none →
      lookupFile w (getFilePath c.serverDistDir (key ++ ".html")
        IncrementalCacheKind.APP_PAGE) = some eh →
      (∀ e, lookupFile w (replaceSuffix (getFilePath c.serverDistDir (key ++ ".html")
          IncrementalCacheKind.APP_PAGE) ".html" NEXT_META_SUFFIX) = some e →
        ∀ m, e.content ≠ FileContent.metaJson m) →
      lookupFile w (getFilePath c.serverDistDir
        (key ++ (if ctx.isRoutePPREnabled then RSC_PREFETCH_SUFFIX else RSC_SUFFIX))
        IncrementalCacheKind.APP_PAGE) = some er →
      (get c key ctx now w).1
        = some (CacheHandlerValue.mk (some eh.mtime)
            (some (CachedRouteValue.appPage eh.content.asText (some er.content)
              none none none)))) := by
  refine ⟨?_, ?_, ?_, ?_, ?_⟩
  · intro c key ctx now w hmem hmiss
    cases hk : ctx.kind
    case APP_ROUTE =>
      unfold get
      rw [hmem]
      dsimp only []
      rw [hk]
      dsimp only []
      apply appRouteGet_fst_none_of_body_missing
      rw [hk] at hmiss
      simpa using hmiss
    all_goals
      refine get_fst_none_of_core_thrown c key ctx now w (by rw [hk]; decide) hmem
        (diskReadCore_fst_of_content_missing c key ctx now w (by
          rw [hk]
          rw [hk] at hmiss
          simpa using hmiss))
  · intro c key ctx now w hk hmem hbad
    unfold get
    rw [hmem]
    dsimp only []
    rw [hk]
    dsimp only []
    exact appRouteGet_fst_none_of_meta_bad c key w hbad
  · intro c key ctx now w hk hf hmem hbad
    exact get_fst_none_of_core_thrown c key ctx now w (by rw [hk]; decide) hmem
      (diskReadCore_fst_thrown_of_pages_data_bad c key ctx now w hk hf hbad)
  · intro c key ctx now w hk hf hmem hmiss
    exact get_fst_none_of_core_thrown c key ctx now w (by rw [hk]; decide) hmem
      (diskReadCore_fst_thrown_of_rsc_missing c key ctx now w hk hf hmiss)
  · intro c key ctx now w eh er hk hf hmem hhtml hbad hrsc
    have hcore := diskReadCore_appPage_meta_swallowed c key ctx now w eh er
      hk hf hhtml hbad hrsc
    unfold get
    rw [hmem]
    dsimp only []
    rw [hk]
    dsimp only []
    cases hdc : diskReadCore c key ctx now w with
    | mk out w1 =>
      rw [hdc] at hcore
      dsimp only [] at hcore
      subst hcore
      dsimp only []
      exact stalenessCheck_fst_some_of_no_headers c ctx now _ _ _ rfl (Or.inl rfl) rfl

/-- C8 counterexample: the original claim says a missing or unparsable
metadata sidecar causes absence, but for APP_PAGE non-fallback reads the
sidecar read sits in its own inner try/catch: with the html and rsc files
present and the .meta file corrupt, get returns the entry rather than null. -/
theorem c8_app_page_meta_failure_still_served :
    ((get (FileSystemCache.mk true "dist" [] (some (tagsManifestPathOf "dist"))) "k"
        (GetCtx.mk none none IncrementalCacheKind.APP_PAGE false false) 9
        (World.mk
          [("dist/app/k.html", FileEntry.mk (FileContent.text "H") 4),
           ("dist/app/k.meta", FileEntry.mk FileContent.corrupt 4),
           ("dist/app/k.rsc", FileEntry.mk (FileContent.text "R") 4)]
          none (some (TagsManifest.mk 1 [])) [] [] [])).1).isSome = true := by
  rfl

/-- Witness for C8 (amended): a get of kind FETCH against an empty file
system yields null; a get of kind PAGES whose data-payload file is corrupt
yields null; a get of kind APP_PAGE whose metadata sidecar is missing but
whose html and rsc files are present returns the entry with no headers. -/
theorem c8_read_failures_amended_witness :
    (get (FileSystemCache.mk true "dist" [] (some (tagsManifestPathOf "dist"))) "k"
        (GetCtx.mk (some ["a"]) none IncrementalCacheKind.FETCH false false) 9
        (World.mk [] none (some (TagsManifest.mk 1 [])) [] [] [])).1 = none ∧
    (get (FileSystemCache.mk true "dist" [] (some (tagsManifestPathOf "dist"))) "k"
        (GetCtx.mk none none IncrementalCacheKind.PAGES false false) 9
        (World.mk
          [("dist/pages/k.html", FileEntry.mk (FileContent.text "H") 4),
           ("dist/pages/k.json", FileEntry.mk FileContent.corrupt 4)]
          none (some (TagsManifest.mk 1 [])) [] [] [])).1 = none ∧
    (get (FileSystemCache.mk true "dist" [] (some (tagsManifestPathOf "dist"))) "k"
        (GetCtx.mk none none IncrementalCacheKind.APP_PAGE false false) 9
        (World.mk
          [("dist/app/k.html", FileEntry.mk (FileContent.text "H") 4),
           ("dist/app/k.rsc", FileEntry.mk (FileContent.text "R") 4)]
          none (some (TagsManifest.mk 1 [])) [] [] [])).1
      = some (CacheHandlerValue.mk (some 4)
          (some (CachedRouteValue.appPage "H" (some (FileContent.text "R"))
            none none none))) :=
  ⟨c8_read_failures_amended.1
      (FileSystemCache.mk true "dist" [] (some (tagsManifestPathOf "dist"))) "k"
      (GetCtx.mk (some ["a"]) none IncrementalCacheKind.FETCH false false) 9
      (World.mk [] none (some (TagsManifest.mk 1 [])) [] [] []) rfl rfl,
    c8_read_failures_amended.2.2.1
      (FileSystemCache.mk true "dist" [] (some (tagsManifestPathOf "dist"))) "k"
      (GetCtx.mk none none IncrementalCacheKind.PAGES false false) 9
      (World.mk
        [("dist/pages/k.html", FileEntry.mk (FileContent.text "H") 4),
         ("dist/pages/k.json", FileEntry.mk FileContent.corrupt 4)]
        none (some (TagsManifest.mk 1 [])) [] [] []) rfl rfl rfl
      (by
        intro e he d hcon
        have h2 : FileEntry.mk FileContent.corrupt 4 = e := by injection he
        rw [← h2] at hcon
        simp at hcon),
    c8_read_failures_amended.2.2.2.2
      (FileSystemCache.mk true "dist" [] (some (tagsManifestPathOf "dist"))) "k"
      (GetCtx.mk none none IncrementalCacheKind.APP_PAGE false false) 9
      (World.mk
        [("dist/app/k.html", FileEntry.mk (FileContent.text "H") 4),
         ("dist/app/k.rsc", FileEntry.mk (FileContent.text "R") 4)]
        none (some (TagsManifest.mk 1 [])) [] [] [])
      (FileEntry.mk (FileContent.text "H") 4) (FileEntry.mk (FileContent.text "R") 4)
      rfl rfl rfl rfl (by intro e he m; cases he) rfl⟩

/-! ### Claim C1 -/

theorem get_fst_of_memory_hit (c : FileSystemCache) (ctx : GetCtx) (now : Nat)
    {w : World} {key : String} {d : CacheHandlerValue}
    (hmem : memGet w key = some d) :
    (get c key ctx now w).1 = (stalenessCheck c ctx now (some d) w).1 := by
  unfold get
  rw [hmem]

theorem manifestStale_true {m : TagsManifest} {t : String} {L now rv : Nat}
    (hmi : m.items.lookup t = some rv) (hrv : rv ≠ 0) (hL : L ≠ 0) (hle : L ≤ rv) :
    manifestStale (some m) t (some L) now = true := by
  unfold manifestStale lmOrNow
  dsimp only []
  rw [hmi]
  dsimp only []
  rw [if_neg hL]
  rw [if_pos ⟨hrv, hle⟩]

theorem stalenessCheck_fst_none_page (c : FileSystemCache) (ctx : GetCtx) (now : Nat)
    (w : World) (d : CacheHandlerValue) (v : CachedRouteValue)
    (hdrs : Headers) (s t : String) (m : TagsManifest) (rv L : Nat)
    (hd : d.value = some v)
    (hkind : v.kindOf = CachedRouteKind.APP_PAGE ∨ v.kindOf = CachedRouteKind.PAGES)
    (hhd : v.headersOf = some hdrs)
    (hlkup : hdrs.lookup NEXT_CACHE_TAGS_HEADER = some (HeaderValue.str s))
    (ht : t ∈ splitComma s)
    (hlm : d.lastModified = some L)
    (hm : w.tagsManifest = some m)
    (hmi : m.items.lookup t = some rv)
    (hrv : rv ≠ 0) (hL : L ≠ 0) (hle : L ≤ rv) :
    (stalenessCheck c ctx now (some d) w).1 = none := by
  unfold stalenessCheck
  dsimp only []
  rw [hd]
  dsimp only []
  rw [if_pos hkind, hhd]
  dsimp only [Option.bind]
  rw [hlkup]
  dsimp only []
  cases hsp : splitComma s with
  | nil => rw [hsp] at ht; cases ht
  | cons a as =>
    dsimp only []
    rw [loadTagsManifest_of_some c hm]
    have hstale : ((a :: as).any fun tag =>
        manifestStale w.tagsManifest tag d.lastModified now) = true := by
      refine List.any_eq_true.mpr ⟨t, ?_, ?_⟩
      · rw [← hsp]; exact ht
      · rw [hm, hlm]
        exact manifestStale_true hmi hrv hL hle
    simp [hstale]

theorem stalenessCheck_fst_none_fetch (c : FileSystemCache) (ctx : GetCtx) (now : Nat)
    (w : World) (d : CacheHandlerValue) (v : CachedFetchValue)
    (t : String) (m : TagsManifest) (rv L : Nat)
    (hd : d.value = some (CachedRouteValue.fetch v))
    (ht : t ∈ ctx.tags.getD [] ++ ctx.softTags.getD [])
    (hlm : d.lastModified = some L)
    (hm : w.tagsManifest = some m)
    (hmi : m.items.lookup t = some rv)
    (hrv : rv ≠ 0) (hL : L ≠ 0) (hle : L ≤ rv) :
    (stalenessCheck c ctx now (some d) w).1 = none := by
  unfold stalenessCheck
  dsimp only []
  rw [hd]
  dsimp only []
  rw [if_neg (by simp [CachedRouteValue.kindOf])]
  rw [if_pos (by simp [CachedRouteValue.kindOf])]
  rw [loadTagsManifest_of_some c hm]
  have hstale : ((ctx.tags.getD [] ++ ctx.softTags.getD []).any fun tag =>
      c.revalidatedTags.contains tag ||
        manifestStale w.tagsManifest tag d.lastModified now) = true := by
    refine List.any_eq_true.mpr ⟨t, ht, ?_⟩
    have hms : manifestStale w.tagsManifest t d.lastModified now = true := by
      rw [hm, hlm]
      exact manifestStale_true hmi hrv hL hle
    rw [hms, Bool.or_true]
  rw [hstale]
  rfl

/-- C1 (amended): a cached candidate that reaches staleness evaluation is
discarded when the in-memory tags manifest records a NONZERO revalidatedAt for
one of its tags that is at or after the candidate's NONZERO lastModified
(equality included): (1) for an APP_PAGE candidate whose cache-tags header
lists the tag; (2) for a PAGES candidate likewise; (3) for a FETCH candidate
with the tag among the union of request tags and soft tags. The two
nonzero-ness conditions are forced by JS truthiness in the source: a zero
revalidatedAt fails the "revalidatedAt &&" guard and is ignored, and a zero
(or missing) lastModified is replaced by Date.now() in the comparison. -/
theorem c1_staleness_at_or_after_write_amended :
    (∀ (c : FileSystemCache) (key : String) (ctx : GetCtx) (now : Nat) (w : World)
        (L : Nat) (html : String) (rsc : Option FileContent) (post : Option String)
        (hdrs : Headers) (st : Option Nat) (s t : String) (m : TagsManifest) (rv : Nat),
      memGet w key = some (CacheHandlerValue.mk (some L)
        (some (CachedRouteValue.appPage html rsc post (some hdrs) st))) →
      hdrs.lookup NEXT_CACHE_TAGS_HEADER = some (HeaderValue.str s) →
      t ∈ splitComma s →
      w.tagsManifest = some m →
      m.items.lookup t = some rv →
      rv ≠ 0 → L ≠ 0 → L ≤ rv →
      (get c key ctx now w).1 = none)
    ∧ (∀ (c : FileSystemCache) (key : String) (ctx : GetCtx) (now : Nat) (w : World)
        (L : Nat) (html pageData : String) (hdrs : Headers) (st : Option Nat)
        (s t : String) (m : TagsManifest) (rv : Nat),
      memGet w key = some (CacheHandlerValue.mk (some L)
        (some (CachedRouteValue.pages html pageData (some hdrs) st))) →
      hdrs.lookup NEXT_CACHE_TAGS_HEADER = some (HeaderValue.str s) →
      t ∈ splitComma s →
      w.tagsManifest = some m →
      m.items.lookup t = some rv →
      rv ≠ 0 → L ≠ 0 → L ≤ rv →
      (get c key ctx now w).1 = none)
    ∧ (∀ (c : FileSystemCache) (key : String) (ctx : GetCtx) (now : Nat) (w : World)
        (L : Nat) (v : CachedFetchValue) (t : String) (m : TagsManifest) (rv : Nat),
      memGet w key = some (CacheHandlerValue.mk (some L)
        (some (CachedRouteValue.fetch v))) →
      t ∈ ctx.tags.getD [] ++ ctx.softTags.getD [] →
      w.tagsManifest = some m →
      m.items.lookup t = some rv →
      rv ≠ 0 → L ≠ 0 → L ≤ rv →
      (get c key ctx now w).1 = none) := by
  refine ⟨?_, ?_, ?_⟩
  · intro c key ctx now w L html rsc post hdrs st s t m rv hmem hlkup ht hm hmi hrv hL hle
    rw [get_fst_of_memory_hit c ctx now hmem]
    exact stalenessCheck_fst_none_page c ctx now w _ _ hdrs s t m rv L rfl
      (Or.inl rfl) rfl hlkup ht rfl hm hmi hrv hL hle
  · intro c key ctx now w L html pageData hdrs st s t m rv hmem hlkup ht hm hmi hrv hL hle
    rw [get_fst_of_memory_hit c ctx now hmem]
    exact stalenessCheck_fst_none_page c ctx now w _ _ hdrs s t m rv L rfl
      (Or.inr rfl) rfl hlkup ht rfl hm hmi hrv hL hle
  · intro c key ctx now w L v t m rv hmem ht hm hmi hrv hL hle
    rw [get_fst_of_memory_hit c ctx now hmem]
    exact stalenessCheck_fst_none_fetch c ctx now w _ v t m rv L rfl ht rfl hm hmi hrv hL hle

/-- C1 counterexample: the claim as stated fails at zero timestamps. The
manifest records revalidatedAt = 0 for tag a (so 0 >= 0 = lastModified and the
claim demands absence), yet get serves the candidate: the source guard
"revalidatedAt && revalidatedAt >= ..." treats the zero revalidatedAt as
falsy. The candidate is an APP_PAGE read from disk whose mtime is 0 and whose
metadata sidecar carries the cache-tags header "a". -/
theorem c1_zero_revalidated_at_not_stale :
    ((get (FileSystemCache.mk true "dist" [] (some (tagsManifestPathOf "dist"))) "k"
        (GetCtx.mk (some []) (some []) IncrementalCacheKind.APP_PAGE false false) 7
        (World.mk
          [("dist/app/k.html", FileEntry.mk (FileContent.text "h") 0),
           ("dist/app/k.meta",
            FileEntry.mk (FileContent.metaJson (RouteMetadata.mk (some 200)
              (some [(NEXT_CACHE_TAGS_HEADER, HeaderValue.str "a")]) none)) 0),
           ("dist/app/k.rsc", FileEntry.mk (FileContent.text "r") 0)]
          none (some (TagsManifest.mk 1 [("a", 0)])) [] [] [])).1).isSome = true := by
  rfl

/-- Witness for C1 (amended), the boundary scenario of the spec: manifest
records revalidatedAt = 100 for tag a, the cached PAGES candidate has
lastModified = 100 and its cache-tags header lists a; get returns absence. -/
theorem c1_staleness_at_or_after_write_amended_witness :
    (get (FileSystemCache.mk true "dist" [] (some (tagsManifestPathOf "dist"))) "k"
        (GetCtx.mk none none IncrementalCacheKind.PAGES false false) 333
        (World.mk []
          (some (MemCacheInst.mk 50
            [("k", CacheHandlerValue.mk (some 100)
              (some (CachedRouteValue.pages "h" "pd"
                (some [(NEXT_CACHE_TAGS_HEADER, HeaderValue.str "a")]) none)))]))
          (some (TagsManifest.mk 1 [("a", 100)])) [] [] [])).1 = none :=
  c1_staleness_at_or_after_write_amended.2.1
    (FileSystemCache.mk true "dist" [] (some (tagsManifestPathOf "dist"))) "k"
    (GetCtx.mk none none IncrementalCacheKind.PAGES false false) 333
    (World.mk []
      (some (MemCacheInst.mk 50
        [("k", CacheHandlerValue.mk (some 100)
          (some (CachedRouteValue.pages "h" "pd"
            (some [(NEXT_CACHE_TAGS_HEADER, HeaderValue.str "a")]) none)))]))
      (some (TagsManifest.mk 1 [("a", 100)])) [] [] [])
    100 "h" "pd" [(NEXT_CACHE_TAGS_HEADER, HeaderValue.str "a")] none "a" "a"
    (TagsManifest.mk 1 [("a", 100)]) 100
    rfl rfl (by decide) rfl rfl (by decide) (by decide) (by decide)

/-! ### Claim C3 -/

theorem diskReadCore_fetch_writeback (c : FileSystemCache) (key : String)
    (ctx : GetCtx) (now : Nat) (w : World) (v : CachedFetchValue) (mt : Nat)
    (hk : ctx.kind = IncrementalCacheKind.FETCH)
    (hflush : c.flushToDisk = true)
    (hfile : lookupFile w (getFilePath c.serverDistDir key IncrementalCacheKind.FETCH)
      = some (FileEntry.mk (FileContent.fetchJson v) mt))
    (hcov : (match ctx.tags with
      | some ts => ts.all fun t => (v.tags.getD []).contains t
      | none => false) = false)
    (hwrite : getFilePath c.serverDistDir key IncrementalCacheKind.FETCH ∉ w.writeFailures) :
    (diskReadCore c key ctx now w).1
        = CoreOut.dataIs (CacheHandlerValue.mk (some mt) (some (CachedRouteValue.fetch v)))
    ∧ lookupFile (diskReadCore c key ctx now w).2
        (getFilePath c.serverDistDir key IncrementalCacheKind.FETCH)
      = some (FileEntry.mk
          (FileContent.fetchJson (CachedFetchValue.mk v.data v.revalidate ctx.tags)) now) := by
  unfold diskReadCore
  dsimp only []
  rw [hk]
  rw [if_pos rfl]
  simp only [readFileE_fst, readFileE_snd, statE_fst, statE_snd, lookupFile_set_reads]
  rw [hfile]
  dsimp only []
  rw [hflush]
  rw [if_neg (show ¬¬(true = true) from by decide)]
  rw [hcov]
  rw [if_neg (show ¬(false = true) from by decide)]
  unfold set
  dsimp only []
  rw [hflush]
  rw [if_neg (show ¬¬(true = true) from by decide)]
  have hpf : getFilePath c.serverDistDir key IncrementalCacheKind.FETCH ∉
      (memSet { w with reads := w.reads ++
          [getFilePath c.serverDistDir key IncrementalCacheKind.FETCH] ++
          [getFilePath c.serverDistDir key IncrementalCacheKind.FETCH] } key
        (CacheHandlerValue.mk (some now)
          (some (CachedRouteValue.fetch v)))).writeFailures := by
    simpa using hwrite
  rw [writeFileE_fst_of_ok _ now hpf]
  rw [if_pos rfl]
  dsimp only []
  exact ⟨rfl, writeFileE_lookup_self _ now hpf⟩

/-- C3 (amended): when a freshly-read fetch entry's stored tags do not cover
the currently requested tags, get triggers a write-back through set, and the
tags subsequently stored for that key are EXACTLY the requested tags of the
context (ctx.tags) — so a later read's stored tags include every requested
tag, but previously stored tags that are not among the requested ones are
dropped rather than unioned in. -/
theorem c3_fetch_writeback_stores_requested_tags (c : FileSystemCache) (key : String)
    (ctx : GetCtx) (now : Nat) (w : World) (v : CachedFetchValue) (mt : Nat)
    (hk : ctx.kind = IncrementalCacheKind.FETCH)
    (hmem : memGet w key = none)
    (hflush : c.flushToDisk = true)
    (hfile : lookupFile w (getFilePath c.serverDistDir key IncrementalCacheKind.FETCH)
      = some (FileEntry.mk (FileContent.fetchJson v) mt))
    (hcov : (match ctx.tags with
      | some ts => ts.all fun t => (v.tags.getD []).contains t
      | none => false) = false)
    (hwrite : getFilePath c.serverDistDir key IncrementalCacheKind.FETCH ∉ w.writeFailures) :
    lookupFile (get c key ctx now w).2
        (getFilePath c.serverDistDir key IncrementalCacheKind.FETCH)
      = some (FileEntry.mk
          (FileContent.fetchJson (CachedFetchValue.mk v.data v.revalidate ctx.tags)) now) := by
  obtain ⟨h1, h2⟩ := diskReadCore_fetch_writeback c key ctx now w v mt hk hflush hfile hcov hwrite
  unfold get
  rw [hmem]
  dsimp only []
  rw [hk]
  dsimp only []
  cases hdc : diskReadCore c key ctx now w with
  | mk out w1 =>
    rw [hdc] at h1 h2
    dsimp only [] at h1 h2
    subst h1
    dsimp only []
    have hfiles : lookupFile (stalenessCheck c ctx now
        (some (CacheHandlerValue.mk (some mt) (some (CachedRouteValue.fetch v))))
        (memSet w1 key (CacheHandlerValue.mk (some mt)
          (some (CachedRouteValue.fetch v))))).2
        (getFilePath c.serverDistDir key IncrementalCacheKind.FETCH)
        = lookupFile w1 (getFilePath c.serverDistDir key IncrementalCacheKind.FETCH) := by
      unfold lookupFile
      rw [stalenessCheck_snd_files, memSet_files]
    rw [hfiles]
    exact h2

/-- C3 counterexample: a stored fetch entry tagged [a] read with requested
tags [b] triggers the write-back, after which the stored tag list is exactly
[b] — tag a has been dropped, so the stored tags are NOT the union of the old
stored tags and the requested tags, contradicting the claim that no
previously stored tag is lost. -/
theorem c3_writeback_drops_unrequested_tags :
    (match lookupFile
        (get (FileSystemCache.mk true "dist" [] (some (tagsManifestPathOf "dist"))) "k"
          (GetCtx.mk (some ["b"]) none IncrementalCacheKind.FETCH false false) 20
          (World.mk
            [("dist/../cache/fetch-cache/k",
              FileEntry.mk (FileContent.fetchJson (CachedFetchValue.mk "x" 1 (some ["a"]))) 10)]
            none (some (TagsManifest.mk 1 [])) [] [] [])).2
        "dist/../cache/fetch-cache/k" with
      | some e =>
        match e.content with
        | FileContent.fetchJson vv => some vv.tags
        | _ => none
      | none => none) = some (some ["b"]) := by
  rfl

/-- Witness for C3 (amended), the spec's tag-union scenario: stored tags [a],
requested tags [a, b]; after the write-back the stored tags are [a, b] (here
the requested list happens to contain the old tag, so nothing is lost). -/
theorem c3_fetch_writeback_stores_requested_tags_witness :
    lookupFile
        (get (FileSystemCache.mk true "dist" [] (some (tagsManifestPathOf "dist"))) "k"
          (GetCtx.mk (some ["a", "b"]) none IncrementalCacheKind.FETCH false false) 20
          (World.mk
            [("dist/../cache/fetch-cache/k",
              FileEntry.mk (FileContent.fetchJson (CachedFetchValue.mk "x" 1 (some ["a"]))) 10)]
            none (some (TagsManifest.mk 1 [])) [] [] [])).2
        (getFilePath "dist" "k" IncrementalCacheKind.FETCH)
      = some (FileEntry.mk
          (FileContent.fetchJson (CachedFetchValue.mk "x" 1 (some ["a", "b"]))) 20) :=
  c3_fetch_writeback_stores_requested_tags
    (FileSystemCache.mk true "dist" [] (some (tagsManifestPathOf "dist"))) "k"
    (GetCtx.mk (some ["a", "b"]) none IncrementalCacheKind.FETCH false false) 20
    (World.mk
      [("dist/../cache/fetch-cache/k",
        FileEntry.mk (FileContent.fetchJson (CachedFetchValue.mk "x" 1 (some ["a"]))) 10)]
      none (some (TagsManifest.mk 1 [])) [] [] [])
    (CachedFetchValue.mk "x" 1 (some ["a"])) 10
    rfl rfl rfl (by rfl) (by rfl) (by simp)

/-! ### Claim C9 -/

theorem str_head_ne {s t : String} {a b : Char}
    (h1 : s.data.head? = some a) (h2 : t.data.head? = some b) (hab : a ≠ b) : s ≠ t := by
  intro he
  rw [he] at h1
  rw [h1] at h2
  exact hab (by injection h2)

theorem pathJoin3_append_suffix (d seg k s : String) :
    pathJoin [d, seg, k ++ s] = ((d ++ "/") ++ ((seg ++ "/") ++ k)) ++ s := by
  show (d ++ "/") ++ ((seg ++ "/") ++ (k ++ s))
      = ((d ++ "/") ++ ((seg ++ "/") ++ k)) ++ s
  rw [str_append_assoc (d ++ "/") ((seg ++ "/") ++ k) s,
    str_append_assoc (seg ++ "/") k s]

theorem tagsManifestPathOf_ne_app (d x : String) :
    tagsManifestPathOf d ≠ pathJoin [d, "app", x] := by
  intro he
  have h1 : (d ++ "/") ++ pathJoin ["..", "cache", "fetch-cache", "tags-manifest.json"]
      = (d ++ "/") ++ pathJoin ["app", x] := he
  have h2 := str_append_left_cancel h1
  have hA : (pathJoin ["..", "cache", "fetch-cache", "tags-manifest.json"]).data.head?
      = some '.' := by decide
  have hB : (pathJoin ["app", x]).data.head? = some 'a' := by
    show (("app" ++ "/") ++ x).data.head? = some 'a'
    rw [string_data_append]
    rfl
  exact str_head_ne hA hB (by decide) h2

theorem tagsManifestPathOf_ne_pages (d x : String) :
    tagsManifestPathOf d ≠ pathJoin [d, "pages", x] := by
  intro he
  have h1 : (d ++ "/") ++ pathJoin ["..", "cache", "fetch-cache", "tags-manifest.json"]
      = (d ++ "/") ++ pathJoin ["pages", x] := he
  have h2 := str_append_left_cancel h1
  have hA : (pathJoin ["..", "cache", "fetch-cache", "tags-manifest.json"]).data.head?
      = some '.' := by decide
  have hB : (pathJoin ["pages", x]).data.head? = some 'p' := by
    show (("pages" ++ "/") ++ x).data.head? = some 'p'
    rw [string_data_append]
    rfl
  exact str_head_ne hA hB (by decide) h2

theorem set_appPage_fallback_writes (c : FileSystemCache) (key : String)
    (html : String) (rsc : Option FileContent) (post : Option String)
    (hdrs : Option Headers) (st : Option Nat) (ctx : SetCtx) (now : Nat) (w : World)
    (hfb : ctx.isFallback = true) :
    ∀ p, p ∈ (set c key (some (CachedRouteValue.appPage html rsc post hdrs st))
        ctx now w).2.writes →
      p ∈ w.writes
      ∨ p = getFilePath c.serverDistDir (key ++ ".html") IncrementalCacheKind.APP_PAGE
      ∨ p = replaceSuffix (getFilePath c.serverDistDir (key ++ ".html")
          IncrementalCacheKind.APP_PAGE) ".html" NEXT_META_SUFFIX := by
  intro p hp
  unfold set at hp
  dsimp only [] at hp
  rw [hfb] at hp
  rw [if_neg (show ¬¬(true = true) from by decide)] at hp
  dsimp only [] at hp
  repeat' split at hp
  all_goals simp_all [List.mem_append]
  all_goals tauto

theorem set_pages_fallback_writes (c : FileSystemCache) (key : String)
    (html pageData : String) (hdrs : Option Headers) (st : Option Nat)
    (ctx : SetCtx) (now : Nat) (w : World)
    (hfb : ctx.isFallback = true) :
    ∀ p, p ∈ (set c key (some (CachedRouteValue.pages html pageData hdrs st))
        ctx now w).2.writes →
      p ∈ w.writes
      ∨ p = getFilePath c.serverDistDir (key ++ ".html") IncrementalCacheKind.PAGES := by
  intro p hp
  unfold set at hp
  dsimp only [] at hp
  rw [hfb] at hp
  rw [if_neg (show ¬¬(true = true) from by decide)] at hp
  repeat' split at hp
  all_goals simp_all [List.mem_append]

theorem loadTagsManifest_reads (c : FileSystemCache) (w : World) :
    ∀ p, p ∈ (loadTagsManifest c w).reads →
      p ∈ w.reads ∨ c.tagsManifestPath = some p := by
  intro p hp
  unfold loadTagsManifest at hp
  revert hp
  split
  · exact fun hp => Or.inl hp
  · rename_i q heq
    split
    · exact fun hp => Or.inl hp
    · simp only [readFileE_snd]
      split
      all_goals (
        intro hp
        simp only [List.mem_append, List.mem_singleton] at hp
        rcases hp with hp | hp
        · exact Or.inl hp
        · exact Or.inr (by rw [heq, hp]))

theorem stalenessCheck_reads (c : FileSystemCache) (ctx : GetCtx) (now : Nat)
    (d : Option CacheHandlerValue) (w : World) :
    ∀ p, p ∈ (stalenessCheck c ctx now d w).2.reads →
      p ∈ w.reads ∨ c.tagsManifestPath = some p := by
  intro p hp
  unfold stalenessCheck at hp
  dsimp only [] at hp
  revert hp
  repeat' split
  all_goals intro hp
  all_goals first
    | exact Or.inl hp
    | exact loadTagsManifest_reads c w p hp

theorem diskReadCore_reads_fallback (c : FileSystemCache) (key : String)
    (ctx : GetCtx) (now : Nat) (w : World)
    (hfb : ctx.isFallback = true)
    (hk : ctx.kind = IncrementalCacheKind.APP_PAGE
      ∨ ctx.kind = IncrementalCacheKind.PAGES) :
    ∀ p, p ∈ (diskReadCore c key ctx now w).2.reads →
      p ∈ w.reads ∨ p = getFilePath c.serverDistDir (key ++ ".html") ctx.kind := by
  intro p hp
  rcases hk with hk | hk
  all_goals (
    unfold diskReadCore at hp
    dsimp only [] at hp
    rw [hk] at hp
    rw [if_neg (by decide)] at hp
    revert hp
    repeat' split
    all_goals intro hp
    all_goals simp_all [List.mem_append])

theorem get_reads_fallback_pagelike (c : FileSystemCache) (key : String)
    (ctx : GetCtx) (now : Nat) (w : World)
    (hfb : ctx.isFallback = true)
    (hk : ctx.kind = IncrementalCacheKind.APP_PAGE
      ∨ ctx.kind = IncrementalCacheKind.PAGES) :
    ∀ p, p ∈ (get c key ctx now w).2.reads →
      p ∈ w.reads ∨ p = getFilePath c.serverDistDir (key ++ ".html") ctx.kind
        ∨ c.tagsManifestPath = some p := by
  intro p hp
  unfold get at hp
  cases hm2 : memGet w key with
  | some d =>
    rw [hm2] at hp
    dsimp only [] at hp
    rcases stalenessCheck_reads c ctx now (some d) w p hp with h | h
    · exact Or.inl h
    · exact Or.inr (Or.inr h)
  | none =>
    rw [hm2] at hp
    dsimp only [] at hp
    rcases hk with hkk | hkk
    all_goals (
      rw [hkk] at hp
      dsimp only [] at hp
      rcases hdc : diskReadCore c key ctx now w with ⟨out, w1⟩
      rw [hdc] at hp
      have hcore : ∀ q, q ∈ w1.reads →
          q ∈ w.reads ∨ q = getFilePath c.serverDistDir (key ++ ".html") ctx.kind := by
        intro q hq
        have h3 := diskReadCore_reads_fallback c key ctx now w hfb
          (by rw [hkk]; first | exact Or.inl rfl | exact Or.inr rfl) q
        rw [hdc] at h3
        exact h3 hq
      cases out with
      | thrown =>
        dsimp only [] at hp
        rcases hcore p hp with h | h
        · exact Or.inl h
        · exact Or.inr (Or.inl h)
      | retNull =>
        dsimp only [] at hp
        rcases hcore p hp with h | h
        · exact Or.inl h
        · exact Or.inr (Or.inl h)
      | dataIs d =>
        dsimp only [] at hp
        rcases stalenessCheck_reads c ctx now (some d) (memSet w1 key d) p hp with h | h
        · rw [memSet_reads] at h
          rcases hcore p h with h2 | h2
          · exact Or.inl h2
          · exact Or.inr (Or.inl h2)
        · exact Or.inr (Or.inr h))

/-- C9: fallback page-like operations never touch the data-payload file.
(1) set of an APP_PAGE value with isFallback never writes the rsc data-payload
file (any write of that path must already be in the prior write log); (2) set
of a PAGES value with isFallback never writes the .json data-payload file;
(3) get of kind APP_PAGE with isFallback never reads the rsc data-payload file
nor the .meta metadata sidecar; (4) get of kind PAGES with isFallback never
reads the .json data-payload file. The get parts assume the tags-manifest path
is the one the constructor derives (or is unset), which lets the staleness
phase's manifest read be separated from the data-payload path. -/
theorem c9_fallback_skips_data_payload :
    (∀ (c : FileSystemCache) (key html : String) (rsc : Option FileContent)
        (post : Option String) (hdrs : Option Headers) (st : Option Nat)
        (ctx : SetCtx) (now : Nat) (w : World),
      ctx.isFallback = true →
      getFilePath c.serverDistDir
          (key ++ (if ctx.isRoutePPREnabled then RSC_PREFETCH_SUFFIX else RSC_SUFFIX))
          IncrementalCacheKind.APP_PAGE
        ∈ (set c key (some (CachedRouteValue.appPage html rsc post hdrs st))
            ctx now w).2.writes →
      getFilePath c.serverDistDir
          (key ++ (if ctx.isRoutePPREnabled then RSC_PREFETCH_SUFFIX else RSC_SUFFIX))
          IncrementalCacheKind.APP_PAGE ∈ w.writes)
    ∧ (∀ (c : FileSystemCache) (key html pageData : String) (hdrs : Option Headers)
        (st : Option Nat) (ctx : SetCtx) (now : Nat) (w : World),
      ctx.isFallback = true →
      getFilePath c.serverDistDir (key ++ NEXT_DATA_SUFFIX) IncrementalCacheKind.PAGES
        ∈ (set c key (some (CachedRouteValue.pages html pageData hdrs st))
            ctx now w).2.writes →
      getFilePath c.serverDistDir (key ++ NEXT_DATA_SUFFIX) IncrementalCacheKind.PAGES
        ∈ w.writes)
    ∧ (∀ (c : FileSystemCache) (key : String) (ctx : GetCtx) (now : Nat) (w : World),
      ctx.isFallback = true → ctx.kind = IncrementalCacheKind.APP_PAGE →
      (c.tagsManifestPath = none
        ∨ c.tagsManifestPath = some (tagsManifestPathOf c.serverDistDir)) →
      (getFilePath c.serverDistDir
          (key ++ (if ctx.isRoutePPREnabled then RSC_PREFETCH_SUFFIX else RSC_SUFFIX))
          IncrementalCacheKind.APP_PAGE
          ∈ (get c key ctx now w).2.reads →
        getFilePath c.serverDistDir
          (key ++ (if ctx.isRoutePPREnabled then RSC_PREFETCH_SUFFIX else RSC_SUFFIX))
          IncrementalCacheKind.APP_PAGE ∈ w.reads)
      ∧ (replaceSuffix (getFilePath c.serverDistDir (key ++ ".html")
            IncrementalCacheKind.APP_PAGE) ".html" NEXT_META_SUFFIX
          ∈ (get c key ctx now w).2.reads →
        replaceSuffix (getFilePath c.serverDistDir (key ++ ".html")
            IncrementalCacheKind.APP_PAGE) ".html" NEXT_META_SUFFIX ∈ w.reads))
    ∧ (∀ (c : FileSystemCache) (key : String) (ctx : GetCtx) (now : Nat) (w : World),
      ctx.isFallback = true → ctx.kind = IncrementalCacheKind.PAGES →
      (c.tagsManifestPath = none
        ∨ c.tagsManifestPath = some (tagsManifestPathOf c.serverDistDir)) →
      getFilePath c.serverDistDir (key ++ NEXT_DATA_SUFFIX) IncrementalCacheKind.PAGES
          ∈ (get c key ctx now w).2.reads →
      getFilePath c.serverDistDir (key ++ NEXT_DATA_SUFFIX) IncrementalCacheKind.PAGES
        ∈ w.reads) := by
  have happ_html : ∀ (d k : String) (s : String),
      getFilePath d (k ++ s) IncrementalCacheKind.APP_PAGE
        = ((d ++ "/") ++ (("app" ++ "/") ++ k)) ++ s :=
    fun d k s => pathJoin3_append_suffix d "app" k s
  have hpages_html : ∀ (d k : String) (s : String),
      getFilePath d (k ++ s) IncrementalCacheKind.PAGES
        = ((d ++ "/") ++ (("pages" ++ "/") ++ k)) ++ s :=
    fun d k s => pathJoin3_append_suffix d "pages" k s
  refine ⟨?_, ?_, ?_, ?_⟩
  · intro c key html rsc post hdrs st ctx now w hfb hp
    rcases set_appPage_fallback_writes c key html rsc post hdrs st ctx now w hfb _ hp
      with h | h | h
    · exact h
    · exfalso
      rw [happ_html, happ_html] at h
      cases hppr : ctx.isRoutePPREnabled <;> rw [hppr] at h <;>
        exact str_append_ne_of_ne _ (by decide) h
    · exfalso
      rw [happ_html c.serverDistDir key ".html",
        replaceSuffix_append (((c.serverDistDir ++ "/") ++ (("app" ++ "/") ++ key)))
          ".html" NEXT_META_SUFFIX, happ_html] at h
      cases hppr : ctx.isRoutePPREnabled <;> rw [hppr] at h <;>
        exact str_append_ne_of_ne _ (by decide) h
  · intro c key html pageData hdrs st ctx now w hfb hp
    rcases set_pages_fallback_writes c key html pageData hdrs st ctx now w hfb _ hp
      with h | h
    · exact h
    · exfalso
      rw [hpages_html, hpages_html] at h
      exact str_append_ne_of_ne _ (by decide) h
  · intro c key ctx now w hfb hk hman
    constructor
    · intro hp
      rcases get_reads_fallback_pagelike c key ctx now w hfb (Or.inl hk) _ hp with h | h | h
      · exact h
      · exfalso
        rw [hk] at h
        rw [happ_html, happ_html] at h
        cases hppr : ctx.isRoutePPREnabled <;> rw [hppr] at h <;>
          exact str_append_ne_of_ne _ (by decide) h
      · exfalso
        rcases hman with hman | hman
        · rw [hman] at h; cases h
        · rw [hman] at h
          have h2 : tagsManifestPathOf c.serverDistDir
              = getFilePath c.serverDistDir
                (key ++ (if ctx.isRoutePPREnabled then RSC_PREFETCH_SUFFIX else RSC_SUFFIX))
                IncrementalCacheKind.APP_PAGE := by injection h
          exact tagsManifestPathOf_ne_app c.serverDistDir
            (key ++ (if ctx.isRoutePPREnabled then RSC_PREFETCH_SUFFIX else RSC_SUFFIX)) h2
    · intro hp
      rcases get_reads_fallback_pagelike c key ctx now w hfb (Or.inl hk) _ hp with h | h | h
      · exact h
      · exfalso
        rw [hk] at h
        rw [happ_html c.serverDistDir key ".html",
          replaceSuffix_append (((c.serverDistDir ++ "/") ++ (("app" ++ "/") ++ key)))
            ".html" NEXT_META_SUFFIX] at h
        exact str_append_ne_of_ne _ (by decide) h
      · exfalso
        rcases hman with hman | hman
        · rw [hman] at h; cases h
        · rw [hman] at h
          have h2 : tagsManifestPathOf c.serverDistDir
              = replaceSuffix (getFilePath c.serverDistDir (key ++ ".html")
                  IncrementalCacheKind.APP_PAGE) ".html" NEXT_META_SUFFIX := by injection h
          rw [happ_html c.serverDistDir key ".html",
            replaceSuffix_append (((c.serverDistDir ++ "/") ++ (("app" ++ "/") ++ key)))
              ".html" NEXT_META_SUFFIX] at h2
          rw [← happ_html c.serverDistDir key NEXT_META_SUFFIX] at h2
          exact tagsManifestPathOf_ne_app c.serverDistDir (key ++ NEXT_META_SUFFIX) h2
  · intro c key ctx now w hfb hk hman hp
    rcases get_reads_fallback_pagelike c key ctx now w hfb (Or.inr hk) _ hp with h | h | h
    · exact h
    · exfalso
      rw [hk] at h
      rw [hpages_html, hpages_html] at h
      exact str_append_ne_of_ne _ (by decide) h
    · exfalso
      rcases hman with hman | hman
      · rw [hman] at h; cases h
      · rw [hman] at h
        have h2 : tagsManifestPathOf c.serverDistDir
            = getFilePath c.serverDistDir (key ++ NEXT_DATA_SUFFIX)
              IncrementalCacheKind.PAGES := by injection h
        exact tagsManifestPathOf_ne_pages c.serverDistDir (key ++ NEXT_DATA_SUFFIX) h2

/-- Witness for C9: concrete fallback set and get runs never touching the
data-payload paths — the implications of the theorem instantiated at worlds
with empty logs, so membership in the prior log is outright impossible. -/
theorem c9_fallback_skips_data_payload_witness :
    ((SetCtx.mk none false true).isFallback = true) ∧
    ((GetCtx.mk none none IncrementalCacheKind.APP_PAGE false true).isFallback = true) ∧
    (getFilePath "dist" ("k" ++ RSC_SUFFIX) IncrementalCacheKind.APP_PAGE
        ∈ (set (FileSystemCache.mk true "dist" [] (some (tagsManifestPathOf "dist"))) "k"
            (some (CachedRouteValue.appPage "H" none none none none))
            (SetCtx.mk none false true) 5
            (World.mk [] none (some (TagsManifest.mk 1 [])) [] [] [])).2.writes →
      getFilePath "dist" ("k" ++ RSC_SUFFIX) IncrementalCacheKind.APP_PAGE
        ∈ (World.mk [] none (some (TagsManifest.mk 1 [])) [] [] [] : World).writes) ∧
    (getFilePath "dist" ("k" ++ NEXT_DATA_SUFFIX) IncrementalCacheKind.PAGES
        ∈ (get (FileSystemCache.mk true "dist" [] (some (tagsManifestPathOf "dist"))) "k"
            (GetCtx.mk none none IncrementalCacheKind.PAGES false true) 5
            (World.mk [("dist/pages/k.html", FileEntry.mk (FileContent.text "H") 4)]
              none (some (TagsManifest.mk 1 [])) [] [] [])).2.reads →
      getFilePath "dist" ("k" ++ NEXT_DATA_SUFFIX) IncrementalCacheKind.PAGES
        ∈ (World.mk [("dist/pages/k.html", FileEntry.mk (FileContent.text "H") 4)]
            none (some (TagsManifest.mk 1 [])) [] [] [] : World).reads) :=
  ⟨rfl, rfl,
    fun hp => c9_fallback_skips_data_payload.1
      (FileSystemCache.mk true "dist" [] (some (tagsManifestPathOf "dist"))) "k" "H"
      none none none none (SetCtx.mk none false true) 5
      (World.mk [] none (some (TagsManifest.mk 1 [])) [] [] []) rfl hp,
    fun hp => c9_fallback_skips_data_payload.2.2.2
      (FileSystemCache.mk true "dist" [] (some (tagsManifestPathOf "dist"))) "k"
      (GetCtx.mk none none IncrementalCacheKind.PAGES false true) 5
      (World.mk [("dist/pages/k.html", FileEntry.mk (FileContent.text "H") 4)]
        none (some (TagsManifest.mk 1 [])) [] [] []) rfl rfl (Or.inr rfl) hp⟩

end FsCacheModel
